import Mathlib

/-!
# memhook_monitor: a verification development of `main.cpp`

A shallow embedding of the stress harness in `main.cpp`.

* The libfabric library is a deterministic state machine `Fabric σ` over an
  arbitrary state type `σ`: every native call takes the library state and
  returns its results together with the next state.  All theorems quantify
  over `σ`, the library and its state, so they hold for every behaviour of the
  library.
* What the other threads of the process do to the library between two calls of
  one worker is, for that worker, part of the behaviour of the library, so it
  is covered by the same quantification.
* A raised `std::runtime_error` is `Except.error` carrying its message.
* `int` statuses are `Int`, `size_t` lengths are `Nat`, bytes are `Nat` below 256.
* Named constants of the libfabric headers (`FI_THREAD_SAFE`, ...) are the
  fields of `FiConsts`; their numeric values are never used.
* Memory exhaustion in `new char[bufferSize]` and `strdup` is outside the model:
  those allocations always succeed.  `fi_allocinfo`, whose failure the source
  tests, can fail; and the `std::vector` of `getAddr`, whose size the library
  chooses, throws `std::length_error` for a size above its `max_size()` and
  `std::bad_alloc` when the allocator refuses the size.
* `size_t` is `Nat` reduced modulo `SIZE_MAX + 1`; the limits of the C++
  implementation and the answers of its allocator are the fields of `Cxx`.
-/

namespace MemhookMonitor

/-! ## Data model -/

/-- Handle of an open fabric resource (`fid_fabric *`, `fid_domain *`, `fid *`). -/
abbrev Fid := Nat

/-- Named constants of `rdma/fabric.h` and `rdma/fi_errno.h` that the program uses. -/
structure FiConsts where
  FI_THREAD_SAFE : Nat
  FI_MR_LOCAL : Nat
  FI_MR_ALLOCATED : Nat
  FI_MR_PROV_KEY : Nat
  FI_MR_VIRT_ADDR : Nat
  FI_RM_ENABLED : Nat
  FI_EP_RDM : Nat
  FI_PROTO_RXM : Nat
  FI_FORMAT_UNSPEC : Nat
  FI_CONTEXT : Nat
  FI_PROGRESS_AUTO : Nat
  FI_MSG : Nat
  FI_RMA : Nat
  FI_TAGGED : Nat
  FI_SOURCE : Nat
  FI_DIRECTED_RECV : Nat
  FI_TRANSMIT_COMPLETE : Nat
  FI_ETOOSMALL : Nat
deriving DecidableEq, Repr

/-- The fields of `struct fi_domain_attr` that the program writes. -/
structure fi_domain_attr where
  threading : Nat
  mr_mode : Nat
  name : Option String
  resource_mgmt : Nat
  control_progress : Nat
  data_progress : Nat
deriving DecidableEq, Repr

/-- The field of `struct fi_fabric_attr` that the program writes. -/
structure fi_fabric_attr where
  prov_name : Option String
deriving DecidableEq, Repr

/-- The fields of `struct fi_ep_attr` that the program writes. -/
structure fi_ep_attr where
  type : Nat
  protocol : Nat
deriving DecidableEq, Repr

/-- The field of `struct fi_tx_attr` that the program writes. -/
structure fi_tx_attr where
  op_flags : Nat
deriving DecidableEq, Repr

/-- A `struct fi_info` descriptor: `ptr` is the address of the allocation (its
identity), the other fields are the ones the program reads or writes. -/
structure fi_info where
  ptr : Nat
  caps : Nat
  mode : Nat
  addr_format : Nat
  dest_addr : Option Nat
  domain_attr : fi_domain_attr
  fabric_attr : fi_fabric_attr
  ep_attr : fi_ep_attr
  tx_attr : fi_tx_attr
deriving DecidableEq, Repr

/-- Answer of one `fi_getname(fid, buf, &len)` call: the returned status, the bytes
the library stored through `buf`, and the value it left in `len`. -/
structure GetNameReply where
  ret : Int
  written : List Nat
  len : Nat
deriving DecidableEq, Repr

/-- The native library as a state machine over its internal state `σ`.  Calls with
out-parameters return the status together with the value stored through the
out-pointer. -/
structure Fabric (σ : Type) where
  fi_allocinfo : σ → Option fi_info × σ
  fi_version : σ → Nat
  fi_getinfo : σ → Nat → Option String → Option String → Nat → fi_info → (Int × fi_info) × σ
  fi_fabric : σ → fi_fabric_attr → (Int × Fid) × σ
  fi_domain : σ → Fid → fi_info → (Int × Fid) × σ
  fi_close : σ → Fid → Int × σ
  fi_freeinfo : σ → fi_info → σ
  fi_strerror : Int → String
  fi_getname : σ → Fid → Option (List Nat) → Nat → GetNameReply × σ

/-- A `std::source_location` value. -/
structure SourceLocation where
  file_name : String
  line : Nat
  column : Nat
  function_name : String
deriving DecidableEq, Repr

/-! ## Error Translator: `CHECK` (main.cpp 70-80) -/

/-- The diagnostic text that `CHECK` streams into its `std::ostringstream`. -/
def checkMessage (strerror : Int → String) (ret : Int) (location : SourceLocation) : String :=
  "Check failed file: " ++ location.file_name ++ "("
    ++ toString location.line ++ ":" ++ toString location.column ++ ") `"
    ++ location.function_name ++ "`: " ++ strerror ret

/-- `CHECK(ret, location)`: throws when `ret` is non-zero, otherwise does nothing. -/
def CHECK (strerror : Int → String) (ret : Int) (location : SourceLocation) : Except String Unit :=
  if ret ≠ 0 then
    .error (checkMessage strerror ret location)
  else
    .ok ()

/-! ## Discovery/Hints Builder: `makeHints` (main.cpp 25-50) -/

/-- `makeHints()`: allocate a descriptor and fill in the fixed configuration.
`strdup("verbs")` is the string `"verbs"`. -/
def makeHints {σ : Type} (K : FiConsts) (L : Fabric σ) (s : σ) : Except String fi_info × σ :=
  match L.fi_allocinfo s with
  | (none, s1) => (.error "Hints allocation failed", s1)
  | (some hints, s1) =>
    let hints := { hints with domain_attr := { hints.domain_attr with threading := K.FI_THREAD_SAFE } }
    let hints := { hints with domain_attr := { hints.domain_attr with
      mr_mode := K.FI_MR_LOCAL ||| K.FI_MR_ALLOCATED ||| K.FI_MR_PROV_KEY ||| K.FI_MR_VIRT_ADDR } }
    let hints := { hints with domain_attr := { hints.domain_attr with name := none } }
    let hints := { hints with fabric_attr := { hints.fabric_attr with prov_name := some "verbs" } }
    let hints := { hints with domain_attr := { hints.domain_attr with resource_mgmt := K.FI_RM_ENABLED } }
    let hints := { hints with ep_attr := { hints.ep_attr with type := K.FI_EP_RDM } }
    let hints := { hints with ep_attr := { hints.ep_attr with protocol := K.FI_PROTO_RXM } }
    let hints := { hints with addr_format := K.FI_FORMAT_UNSPEC }
    let hints := { hints with dest_addr := none }
    let hints := { hints with mode := K.FI_CONTEXT }
    let hints := { hints with domain_attr := { hints.domain_attr with control_progress := K.FI_PROGRESS_AUTO } }
    let hints := { hints with domain_attr := { hints.domain_attr with data_progress := K.FI_PROGRESS_AUTO } }
    let hints := { hints with
      caps := K.FI_MSG ||| K.FI_RMA ||| K.FI_TAGGED ||| K.FI_SOURCE ||| K.FI_DIRECTED_RECV }
    let hints := { hints with tx_attr := { hints.tx_attr with op_flags := K.FI_TRANSMIT_COMPLETE } }
    (.ok hints, s1)

/-- The configuration that `makeHints` writes, as one descriptor at address `p`. -/
def fixedHints (K : FiConsts) (p : Nat) : fi_info :=
  { ptr := p
    caps := K.FI_MSG ||| K.FI_RMA ||| K.FI_TAGGED ||| K.FI_SOURCE ||| K.FI_DIRECTED_RECV
    mode := K.FI_CONTEXT
    addr_format := K.FI_FORMAT_UNSPEC
    dest_addr := none
    domain_attr :=
      { threading := K.FI_THREAD_SAFE
        mr_mode := K.FI_MR_LOCAL ||| K.FI_MR_ALLOCATED ||| K.FI_MR_PROV_KEY ||| K.FI_MR_VIRT_ADDR
        name := none
        resource_mgmt := K.FI_RM_ENABLED
        control_progress := K.FI_PROGRESS_AUTO
        data_progress := K.FI_PROGRESS_AUTO }
    fabric_attr := { prov_name := some "verbs" }
    ep_attr := { type := K.FI_EP_RDM, protocol := K.FI_PROTO_RXM }
    tx_attr := { op_flags := K.FI_TRANSMIT_COMPLETE } }

/-! ## Address Extractor: `getAddr` (main.cpp 52-68) -/

/-- Arguments of one `fi_getname` call as `getAddr` issues it: the buffer passed
(`none` for `nullptr`) and the value of `addrLen` on entry. -/
structure GetNameCall where
  buf : Option (List Nat)
  len : Nat
deriving DecidableEq, Repr

/-- The C++ implementation as `getAddr` meets it: the largest `size_t`,
`std::vector<char>::max_size()`, and whether the allocator provides a block of the
given number of bytes. -/
structure Cxx where
  SIZE_MAX : Nat
  vector_max_size : Nat
  can_allocate : Nat → Bool

/-- An exception leaving `getAddr`: a `std::runtime_error` thrown by `getAddr` itself,
with its message, or what the constructor of `std::vector` throws: `std::length_error`
for a size above `max_size()`, `std::bad_alloc` when the allocation fails. -/
inductive Thrown where
  | runtime_error (what : String)
  | length_error
  | bad_alloc
deriving DecidableEq, Repr

/-- Outcome of `getAddr`: the `fi_getname` calls it made, what it returned or threw,
and the library state it left. -/
structure AddrRun (σ : Type) where
  calls : List GetNameCall
  result : Except Thrown (List Nat)
  state : σ

/-- Contents of the vector `data` after the library stored `written` through
`data.data()`: a store never changes the size of the vector. -/
def storeInto (data written : List Nat) : List Nat :=
  written.take data.length ++ data.drop written.length

/-- `getAddr(endpoint)`.  The library leaves a `size_t` in `addrLen`; the vector
constructor on line 59 throws when that size is above `max_size()` or cannot be
allocated. -/
def getAddr {σ : Type} (K : FiConsts) (X : Cxx) (L : Fabric σ) (s : σ) (endpoint : Fid) :
    AddrRun σ :=
  let addrLen : Nat := 0
  let (r1, s1) := L.fi_getname s endpoint none addrLen
  let c1 : GetNameCall := ⟨none, addrLen⟩
  let addrLen := r1.len % (X.SIZE_MAX + 1)
  if r1.ret ≠ -(K.FI_ETOOSMALL : Int) ∨ addrLen ≤ 0 then
    ⟨[c1], .error (.runtime_error "Unexpected error"), s1⟩
  else if X.vector_max_size < addrLen then
    ⟨[c1], .error .length_error, s1⟩
  else if X.can_allocate addrLen = false then
    ⟨[c1], .error .bad_alloc, s1⟩
  else
    let data := List.replicate addrLen 0
    let (r2, s2) := L.fi_getname s1 endpoint (some data) addrLen
    let c2 : GetNameCall := ⟨some data, addrLen⟩
    let data := storeInto data r2.written
    if r2.ret ≠ 0 then
      ⟨[c1, c2], .error (.runtime_error "Unexpected error"), s2⟩
    else
      ⟨[c1, c2], .ok data, s2⟩

/-! ## Domain Lifecycle Worker: `domainLam` (main.cpp 88-107) -/

/-- What the compiler puts into `std::source_location::current()` besides the line. -/
structure Build where
  file_name : String
  function_name : String
  column : Nat → Nat

/-- The `std::source_location` of the `CHECK` call on the given line of `main.cpp`. -/
def Build.location (B : Build) (line : Nat) : SourceLocation :=
  { file_name := B.file_name, line := line, column := B.column line,
    function_name := B.function_name }

/-- One call on a fabric resource made by the body of `domainLam` (lines 94-106),
with its arguments, its status and the value it stored through its out-pointer.
`fi_version()` appears as the version argument of `getinfo`, and `fi_strerror` as
the text inside the message of `CHECK`; they are not events of their own. -/
inductive Event where
  /-- Line 94: `fi_getinfo(version, node, service, flags, hints, &info)`. -/
  | getinfo (version : Nat) (node service : Option String) (flags : Nat) (hints : fi_info)
      (ret : Int) (info : fi_info)
  /-- Line 96: `fi_fabric(attr, &fabric, nullptr)`. -/
  | fabric (attr : fi_fabric_attr) (ret : Int) (fabric : Fid)
  /-- Line 99: `fi_domain(fabric, info, &domain, nullptr)`. -/
  | domain (fabric : Fid) (info : fi_info) (ret : Int) (domain : Fid)
  /-- Line 100: `fi_close(&domain->fid)`. -/
  | close_domain (domain : Fid) (ret : Int)
  /-- Line 103: `fi_close(&fabric->fid)`. -/
  | close_fabric (fabric : Fid) (ret : Int)
  /-- Line 104: `fi_freeinfo(info)`. -/
  | freeinfo_info (info : fi_info)
  /-- Line 106: `fi_freeinfo(hints)`. -/
  | freeinfo_hints (hints : fi_info)
deriving DecidableEq, Repr

/-- Outcome of a worker: the calls it made in order, whether it returned or threw,
and the library state it left. -/
structure Run (σ : Type) where
  trace : List Event
  result : Except String Unit
  state : σ

/-- The loop of lines 98-101, for `n` remaining iterations.  The variable `domain` holds
what `fi_domain` stored through `&domain`; it is read only after `CHECK` has passed. -/
def domainLoop {σ : Type} (B : Build) (L : Fabric σ) (fabric : Fid) (info : fi_info) :
    Nat → σ → Run σ
  | 0, s => ⟨[], .ok (), s⟩
  | n + 1, s =>
    let ((ret, domain), s1) := L.fi_domain s fabric info
    match CHECK L.fi_strerror ret (B.location 99) with
    | .error m => ⟨[.domain fabric info ret domain], .error m, s1⟩
    | .ok _ =>
      let (r, s2) := L.fi_close s1 domain
      let rest := domainLoop B L fabric info n s2
      ⟨.domain fabric info ret domain :: .close_domain domain r :: rest.trace, rest.result,
        rest.state⟩

/-- The lambda `domainLam`. -/
def domainLam {σ : Type} (K : FiConsts) (B : Build) (L : Fabric σ) (s0 : σ) : Run σ :=
  match makeHints K L s0 with
  | (.error m, s1) => ⟨[], .error m, s1⟩
  | (.ok hints, s1) =>
    let ((ret, info), s2) := L.fi_getinfo s1 (L.fi_version s1) none none 0 hints
    let e94 := Event.getinfo (L.fi_version s1) none none 0 hints ret info
    match CHECK L.fi_strerror ret (B.location 94) with
    | .error m => ⟨[e94], .error m, s2⟩
    | .ok _ =>
      let ((ret, fabric), s3) := L.fi_fabric s2 info.fabric_attr
      let e96 := Event.fabric info.fabric_attr ret fabric
      match CHECK L.fi_strerror ret (B.location 96) with
      | .error m => ⟨[e94, e96], .error m, s3⟩
      | .ok _ =>
        let loop := domainLoop B L fabric info 500 s3
        match loop.result with
        | .error m => ⟨e94 :: e96 :: loop.trace, .error m, loop.state⟩
        | .ok _ =>
          let (r, s4) := L.fi_close loop.state fabric
          let s5 := L.fi_freeinfo s4 info
          let hints := { hints with dest_addr := none }
          let s6 := L.fi_freeinfo s5 hints
          ⟨e94 :: e96 :: loop.trace
              ++ [.close_fabric fabric r, .freeinfo_info info, .freeinfo_hints hints],
            .ok (), s6⟩

/-- The pool `thrs` of `main` (lines 125-131): 50 threads, each running `domainLam`;
`s i` is the library state in which thread `i` starts. -/
def thrs {σ : Type} (K : FiConsts) (B : Build) (L : Fabric σ) (s : Fin 50 → σ) : List (Run σ) :=
  List.ofFn (fun i => domainLam K B L (s i))

/-! ## Memory Pressure Worker: `bufOperationsLam` (main.cpp 85-86, 111-117) -/

/-- `pageSize`. -/
def pageSize : Nat := 4096

/-- `bufferSize`. -/
def bufferSize : Nat := 51 * pageSize

/-- `new char[n]`: `n` bytes of whatever the heap held (`heap i` at offset `i`). -/
def newCharArray (heap : Nat → Nat) (n : Nat) : List Nat :=
  (List.range n).map (fun i => heap i % 256)

/-- `memset(ptr, c, n)` on a buffer of at least `n` bytes: the first `n` bytes become
`(unsigned char) c`. -/
def memset (ptr : List Nat) (c : Int) (n : Nat) : List Nat :=
  List.replicate (min n ptr.length) (c % 256).toNat ++ ptr.drop n

/-- One step of the pressure worker; `tick` counts the steps the worker has taken. -/
inductive BufEvent where
  /-- Line 112: the value read from `stoken.stop_requested()`. -/
  | stop_requested (tick : Nat) (observed : Bool)
  /-- Line 113: `new char[bufferSize]`. -/
  | new_array (tick : Nat) (size : Nat)
  /-- Line 114: `memset`, with the contents of the buffer after it. -/
  | memset (tick : Nat) (contents : List Nat)
  /-- Line 115: `delete[] ptr`. -/
  | delete_array (tick : Nat)
deriving DecidableEq, Repr

/-- Outcome of the pressure worker: its steps, and whether the loop was left
(`false`: the allowance of flag reads ran out first). -/
structure BufRun where
  trace : List BufEvent
  returned : Bool
deriving DecidableEq, Repr

/-- The lambda `bufOperationsLam`.  `stop t` is the value of the stop flag at step `t`
of the worker, `heap t` the heap contents handed out at step `t`, `fuel` the number
of flag reads allowed, `tick` the step at which the loop condition is evaluated. -/
def bufOperationsLam (stop : Nat → Bool) (heap : Nat → Nat → Nat) : Nat → Nat → BufRun
  | 0, _ => ⟨[], false⟩
  | fuel + 1, tick =>
    if stop tick then
      ⟨[.stop_requested tick true], true⟩
    else
      let ptr := newCharArray (heap (tick + 1)) bufferSize
      let ptr := memset ptr 321 bufferSize
      let rest := bufOperationsLam stop heap fuel (tick + 4)
      ⟨.stop_requested tick false :: .new_array (tick + 1) bufferSize :: .memset (tick + 2) ptr
          :: .delete_array (tick + 3) :: rest.trace, rest.returned⟩

/-! ## Vocabulary for statements about traces -/

/-- The trace of successful open/close cycles of one fabric: for each pair `(d, r)`,
a domain open that returned `0` and produced `d`, followed at once by the close of
`d`, which returned `r`. -/
def cycles (fabric : Fid) (info : fi_info) : List (Fid × Int) → List Event
  | [] => []
  | (d, r) :: ds => .domain fabric info 0 d :: .close_domain d r :: cycles fabric info ds

/-- The status of a call that the worker passes to `CHECK`. -/
def Event.checked : Event → Option Int
  | .getinfo _ _ _ _ _ ret _ => some ret
  | .fabric _ ret _ => some ret
  | .domain _ _ ret _ => some ret
  | _ => none

/-- The source line of the call. -/
def Event.line : Event → Nat
  | .getinfo .. => 94
  | .fabric .. => 96
  | .domain .. => 99
  | .close_domain .. => 100
  | .close_fabric .. => 103
  | .freeinfo_info .. => 104
  | .freeinfo_hints .. => 106

/-- A checked call that returned a non-zero status. -/
def Event.failed (e : Event) : Bool :=
  match e.checked with
  | some ret => decide (ret ≠ 0)
  | none => false

/-- A domain open (line 99). -/
def Event.isDomainOpen : Event → Bool
  | .domain .. => true
  | _ => false

/-- A domain open that returned success. -/
def Event.isDomainOpened : Event → Bool
  | .domain _ _ ret _ => decide (ret = 0)
  | _ => false

/-- A domain close (line 100). -/
def Event.isDomainClose : Event → Bool
  | .close_domain .. => true
  | _ => false

/-- A fabric open (line 96). -/
def Event.isFabricOpen : Event → Bool
  | .fabric .. => true
  | _ => false

/-- A fabric close (line 103). -/
def Event.isFabricClose : Event → Bool
  | .close_fabric .. => true
  | _ => false

/-- A release of the hints descriptor (line 106). -/
def Event.isFreeHints : Event → Bool
  | .freeinfo_hints .. => true
  | _ => false

/-- Every call of the library returns success, in every state. -/
def Fabric.allSucceed {σ : Type} (L : Fabric σ) : Prop :=
  (∀ s, (L.fi_allocinfo s).1 ≠ none) ∧
  (∀ s v n sv f h, (L.fi_getinfo s v n sv f h).1.1 = 0) ∧
  (∀ s a, (L.fi_fabric s a).1.1 = 0) ∧
  (∀ s f i, (L.fi_domain s f i).1.1 = 0) ∧
  (∀ s f, (L.fi_close s f).1 = 0)

/-- The four steps of one iteration of the pressure worker that starts at step
`tick` with the stop flag not set. -/
def pressureCycle (heap : Nat → Nat → Nat) (tick : Nat) : List BufEvent :=
  [.stop_requested tick false, .new_array (tick + 1) bufferSize,
    .memset (tick + 2) (memset (newCharArray (heap (tick + 1)) bufferSize) 321 bufferSize),
    .delete_array (tick + 3)]

/-- The steps of `k` consecutive iterations, the first starting at step `tick`. -/
def pressureCycles (heap : Nat → Nat → Nat) : Nat → Nat → List BufEvent
  | 0, _ => []
  | k + 1, tick => pressureCycle heap tick ++ pressureCycles heap k (tick + 4)

/-- The step at which the event happened. -/
def BufEvent.tick : BufEvent → Nat
  | .stop_requested t _ => t
  | .new_array t _ => t
  | .memset t _ => t
  | .delete_array t => t

/-- An allocation (line 113). -/
def BufEvent.isNew : BufEvent → Bool
  | .new_array .. => true
  | _ => false

/-- A release (line 115). -/
def BufEvent.isDelete : BufEvent → Bool
  | .delete_array .. => true
  | _ => false

/-! ## Concrete libraries and builds -/

/-- A library scripted by the statuses it returns; its state counts the calls made
so far, and every handle it produces is the number of the call that produced it. -/
def scripted (alloc : Bool) (getinfoRet fabricRet : Int) (domainRet closeRet : Nat → Int) :
    Fabric Nat where
  fi_allocinfo s :=
    (if alloc then some ⟨s, 0, 0, 0, some 7, ⟨0, 0, some "x", 0, 0, 0⟩, ⟨none⟩, ⟨0, 0⟩, ⟨0⟩⟩
      else none, s + 1)
  fi_version _ := 0x10015
  fi_getinfo s _ _ _ _ hints := ((getinfoRet, { hints with ptr := s }), s + 1)
  fi_fabric s _ := ((fabricRet, s), s + 1)
  fi_domain s _ _ := ((domainRet s, s), s + 1)
  fi_close s _ := (closeRet s, s + 1)
  fi_freeinfo s _ := s + 1
  fi_strerror ret := "error " ++ toString ret
  fi_getname s _ buf len :=
    (match buf with
      | none => ⟨-257, [], 4⟩
      | some _ => ⟨0, [10, 0, 0, 1], len⟩, s + 1)

/-- The constants with the values they have in the libfabric 1.x headers. -/
def consts : FiConsts where
  FI_THREAD_SAFE := 1
  FI_MR_LOCAL := 4
  FI_MR_ALLOCATED := 32
  FI_MR_PROV_KEY := 64
  FI_MR_VIRT_ADDR := 16
  FI_RM_ENABLED := 2
  FI_EP_RDM := 3
  FI_PROTO_RXM := 11
  FI_FORMAT_UNSPEC := 0
  FI_CONTEXT := 2 ^ 59
  FI_PROGRESS_AUTO := 1
  FI_MSG := 2
  FI_RMA := 4
  FI_TAGGED := 8
  FI_SOURCE := 2 ^ 57
  FI_DIRECTED_RECV := 2 ^ 59
  FI_TRANSMIT_COMPLETE := 2 ^ 27
  FI_ETOOSMALL := 257

/-- A build of `main.cpp` with GCC: the column of a `CHECK` call is that of its opening
parenthesis, 10 on lines 94 and 96 and 12 on line 99, which is indented by two more. -/
def build : Build where
  file_name := "main.cpp"
  function_name := "main()::<lambda()>"
  column := fun line => if line = 99 then 12 else 10

/-- A 64-bit build with libstdc++ on a machine whose allocator provides blocks of up
to 2^40 bytes. -/
def cxx : Cxx where
  SIZE_MAX := 2 ^ 64 - 1
  vector_max_size := 2 ^ 63 - 1
  can_allocate := fun n => decide (n ≤ 2 ^ 40)

/-- A library whose `fi_getname` answers the probe with `-FI_ETOOSMALL` and the length
`n`, and a call with a buffer with success. -/
def probing (n : Nat) : Fabric Nat :=
  { scripted true 0 0 (fun _ => 0) (fun _ => 0) with
    fi_getname := fun s _ buf len =>
      (match buf with
        | none => ⟨-257, [], n⟩
        | some _ => ⟨0, [10, 0, 0, 1], len⟩, s + 1) }

/-! ## Lemmas -/

theorem CHECK_zero (f : Int → String) (loc : SourceLocation) : CHECK f 0 loc = .ok () := by
  simp [CHECK]

theorem CHECK_nonzero (f : Int → String) {ret : Int} (h : ret ≠ 0) (loc : SourceLocation) :
    CHECK f ret loc = .error (checkMessage f ret loc) := by
  simp [CHECK, h]

/-- The two ways the loop of lines 98-101 can end: after `n` full cycles, or at the
first domain open that returns a non-zero status. -/
theorem domainLoop_shape {σ : Type} (B : Build) (L : Fabric σ) (fabric : Fid) (info : fi_info) :
    ∀ (n : Nat) (s : σ),
      (∃ ds : List (Fid × Int), ds.length = n ∧
        (∀ p ∈ ds, ∃ s1 s2, (L.fi_domain s1 fabric info).1 = (0, p.1) ∧
          (L.fi_close s2 p.1).1 = p.2) ∧
        (domainLoop B L fabric info n s).trace = cycles fabric info ds ∧
        (domainLoop B L fabric info n s).result = .ok ()) ∨
      (∃ (ds : List (Fid × Int)) (ret : Int) (d : Fid), ds.length < n ∧ ret ≠ 0 ∧
        (∃ s1, (L.fi_domain s1 fabric info).1 = (ret, d)) ∧
        (domainLoop B L fabric info n s).trace
          = cycles fabric info ds ++ [.domain fabric info ret d] ∧
        (domainLoop B L fabric info n s).result
          = .error (checkMessage L.fi_strerror ret (B.location 99))) := by
  intro n
  induction n with
  | zero =>
    intro s
    exact Or.inl ⟨[], rfl, by simp, rfl, rfl⟩
  | succ n ih =>
    intro s
    rcases hq : L.fi_domain s fabric info with ⟨⟨ret, d⟩, s1⟩
    by_cases hret : ret = 0
    · subst hret
      rcases hc : L.fi_close s1 d with ⟨r, s2⟩
      have hstep : domainLoop B L fabric info (n + 1) s
          = ⟨.domain fabric info 0 d :: .close_domain d r
              :: (domainLoop B L fabric info n s2).trace,
            (domainLoop B L fabric info n s2).result,
            (domainLoop B L fabric info n s2).state⟩ := by
        simp [domainLoop, hq, hc, CHECK_zero]
      rcases ih s2 with ⟨ds, hlen, hds, htr, hres⟩ | ⟨ds, ret, d2, hlen, hne, hlib, htr, hres⟩
      · refine Or.inl ⟨(d, r) :: ds, by simp [hlen], ?_, ?_, ?_⟩
        · intro p hp
          rcases List.mem_cons.mp hp with rfl | hp
          · exact ⟨s, s1, by simp [hq], by simp [hc]⟩
          · exact hds p hp
        · simp [hstep, htr, cycles]
        · simp [hstep, hres]
      · refine Or.inr ⟨(d, r) :: ds, ret, d2, by simp [hlen], hne, hlib, ?_, ?_⟩
        · simp [hstep, htr, cycles]
        · simp [hstep, hres]
    · refine Or.inr ⟨[], ret, d, by simp, hret, ⟨s, by simp [hq]⟩, ?_, ?_⟩
      · simp [domainLoop, hq, CHECK_nonzero _ hret, cycles]
      · simp [domainLoop, hq, CHECK_nonzero _ hret]

/-- The four ways a run of `domainLam` can go once `makeHints` has returned `hints`:
the query fails, the fabric open fails, a domain open fails, or everything checked
succeeds and the worker tears down. -/
theorem domainLam_shape {σ : Type} (K : FiConsts) (B : Build) (L : Fabric σ) (s0 s1 : σ)
    (hints : fi_info) (hm : makeHints K L s0 = (.ok hints, s1)) :
    ∃ (ret1 : Int) (info : fi_info),
      (L.fi_getinfo s1 (L.fi_version s1) none none 0 hints).1 = (ret1, info) ∧
      ((ret1 ≠ 0 ∧
          (domainLam K B L s0).trace
            = [.getinfo (L.fi_version s1) none none 0 hints ret1 info] ∧
          (domainLam K B L s0).result
            = .error (checkMessage L.fi_strerror ret1 (B.location 94))) ∨
        (ret1 = 0 ∧ ∃ (ret2 : Int) (fabric : Fid),
          (∃ s2, (L.fi_fabric s2 info.fabric_attr).1 = (ret2, fabric)) ∧ ret2 ≠ 0 ∧
          (domainLam K B L s0).trace
            = [.getinfo (L.fi_version s1) none none 0 hints ret1 info,
                .fabric info.fabric_attr ret2 fabric] ∧
          (domainLam K B L s0).result
            = .error (checkMessage L.fi_strerror ret2 (B.location 96))) ∨
        (ret1 = 0 ∧ ∃ (fabric : Fid) (ds : List (Fid × Int)) (ret : Int) (d : Fid),
          (∃ s2, (L.fi_fabric s2 info.fabric_attr).1 = (0, fabric)) ∧
          ds.length < 500 ∧ ret ≠ 0 ∧
          (∃ s3, (L.fi_domain s3 fabric info).1 = (ret, d)) ∧
          (domainLam K B L s0).trace
            = .getinfo (L.fi_version s1) none none 0 hints ret1 info
                :: .fabric info.fabric_attr 0 fabric
                :: (cycles fabric info ds ++ [.domain fabric info ret d]) ∧
          (domainLam K B L s0).result
            = .error (checkMessage L.fi_strerror ret (B.location 99))) ∨
        (ret1 = 0 ∧ ∃ (fabric : Fid) (ds : List (Fid × Int)) (r : Int),
          (∃ s2, (L.fi_fabric s2 info.fabric_attr).1 = (0, fabric)) ∧
          ds.length = 500 ∧
          (∀ p ∈ ds, ∃ s3 s4, (L.fi_domain s3 fabric info).1 = (0, p.1) ∧
            (L.fi_close s4 p.1).1 = p.2) ∧
          (∃ s5, (L.fi_close s5 fabric).1 = r) ∧
          (domainLam K B L s0).trace
            = .getinfo (L.fi_version s1) none none 0 hints ret1 info
                :: .fabric info.fabric_attr 0 fabric
                :: (cycles fabric info ds
                    ++ [.close_fabric fabric r, .freeinfo_info info,
                        .freeinfo_hints { hints with dest_addr := none }]) ∧
          (domainLam K B L s0).result = .ok ())) := by
  rcases hg : L.fi_getinfo s1 (L.fi_version s1) none none 0 hints with ⟨⟨ret1, info⟩, s2⟩
  refine ⟨ret1, info, rfl, ?_⟩
  by_cases h1 : ret1 = 0
  · subst h1
    rcases hf : L.fi_fabric s2 info.fabric_attr with ⟨⟨ret2, fabric⟩, s3⟩
    by_cases h2 : ret2 = 0
    · subst h2
      rcases domainLoop_shape B L fabric info 500 s3 with
        ⟨ds, hlen, hds, htr, hres⟩ | ⟨ds, ret, d, hlen, hne, hlib, htr, hres⟩
      · refine Or.inr (Or.inr (Or.inr ⟨rfl, fabric, ds,
          (L.fi_close (domainLoop B L fabric info 500 s3).state fabric).1,
          ⟨s2, by simp [hf]⟩, hlen, hds, ⟨_, rfl⟩, ?_, ?_⟩))
        · simp [domainLam, hm, hg, hf, CHECK_zero, hres, htr]
        · simp [domainLam, hm, hg, hf, CHECK_zero, hres]
      · refine Or.inr (Or.inr (Or.inl ⟨rfl, fabric, ds, ret, d,
          ⟨s2, by simp [hf]⟩, hlen, hne, hlib, ?_, ?_⟩))
        · simp [domainLam, hm, hg, hf, CHECK_zero, hres, htr]
        · simp [domainLam, hm, hg, hf, CHECK_zero, hres]
    · refine Or.inr (Or.inl ⟨rfl, ret2, fabric, ⟨s2, by simp [hf]⟩, h2, ?_, ?_⟩)
      · simp [domainLam, hm, hg, hf, CHECK_zero, CHECK_nonzero _ h2]
      · simp [domainLam, hm, hg, hf, CHECK_zero, CHECK_nonzero _ h2]
  · refine Or.inl ⟨h1, ?_, ?_⟩
    · simp [domainLam, hm, hg, CHECK_nonzero _ h1]
    · simp [domainLam, hm, hg, CHECK_nonzero _ h1]

/-! ## Lemmas on traces -/

/-- A list with exactly one element satisfying `p` splits at that element in only one
way. -/
theorem split_unique {α : Type} (p : α → Bool) :
    ∀ (A B pre post : List α) (x y : α), (∀ a ∈ A, p a = false) → (∀ b ∈ B, p b = false) →
      p y = true → A ++ x :: B = pre ++ y :: post → pre = A ∧ y = x ∧ post = B := by
  intro A
  induction A with
  | nil =>
    intro B pre post x y _ hB hy h
    cases pre with
    | nil =>
      simp only [List.nil_append, List.cons.injEq] at h
      exact ⟨rfl, h.1.symm, h.2.symm⟩
    | cons z pre =>
      simp only [List.nil_append, List.cons_append, List.cons.injEq] at h
      have hy2 : y ∈ B := by
        rw [h.2]
        simp
      rw [hB y hy2] at hy
      exact absurd hy Bool.false_ne_true
  | cons a A ih =>
    intro B pre post x y hA hB hy h
    cases pre with
    | nil =>
      simp only [List.nil_append, List.cons_append, List.cons.injEq] at h
      have := hA a (List.mem_cons_self _ _)
      rw [h.1, hy] at this
      exact absurd this.symm Bool.false_ne_true
    | cons z pre =>
      simp only [List.cons_append, List.cons.injEq] at h
      obtain ⟨h1, h2, h3⟩ := ih B pre post x y
        (fun b hb => hA b (List.mem_cons_of_mem _ hb)) hB hy h.2
      exact ⟨by rw [h.1, h1], h2, h3⟩

theorem mem_cycles (fabric : Fid) (info : fi_info) :
    ∀ (ds : List (Fid × Int)) (e : Event), e ∈ cycles fabric info ds →
      (∃ d, e = .domain fabric info 0 d) ∨ (∃ d r, e = .close_domain d r) := by
  intro ds
  induction ds with
  | nil =>
    intro e he
    simp [cycles] at he
  | cons p ds ih =>
    intro e he
    obtain ⟨d, r⟩ := p
    simp only [cycles, List.mem_cons] at he
    rcases he with rfl | rfl | he
    · exact Or.inl ⟨d, rfl⟩
    · exact Or.inr ⟨d, r, rfl⟩
    · exact ih e he

theorem cycles_counts (fabric : Fid) (info : fi_info) :
    ∀ (ds : List (Fid × Int)),
      (cycles fabric info ds).countP Event.isDomainOpened = ds.length ∧
      (cycles fabric info ds).countP Event.isDomainClose = ds.length ∧
      (cycles fabric info ds).length = 2 * ds.length := by
  intro ds
  induction ds with
  | nil => simp [cycles]
  | cons p ds ih =>
    obtain ⟨d, r⟩ := p
    obtain ⟨h1, h2, h3⟩ := ih
    simp only [cycles, List.countP_cons, Event.isDomainOpened, Event.isDomainClose, h1, h2,
      List.length_cons, h3]
    refine ⟨by simp, by simp, by omega⟩

/-- In a trace of successful cycles followed by events that are not domain closes,
every domain close comes right after the successful open of the handle it closes. -/
theorem close_after_open_cycles (fabric : Fid) (info : fi_info) (tail : List Event)
    (htail : ∀ e ∈ tail, e.isDomainClose = false) :
    ∀ (ds : List (Fid × Int)) (pre post : List Event) (d : Fid) (r : Int),
      cycles fabric info ds ++ tail = pre ++ .close_domain d r :: post →
        ∃ pre2, pre = pre2 ++ [.domain fabric info 0 d] := by
  intro ds
  induction ds with
  | nil =>
    intro pre post d r h
    have hmem : Event.close_domain d r ∈ tail := by
      simp only [cycles, List.nil_append] at h
      rw [h]
      simp
    have := htail _ hmem
    simp [Event.isDomainClose] at this
  | cons p ds ih =>
    intro pre post d r h
    obtain ⟨d0, r0⟩ := p
    simp only [cycles, List.cons_append] at h
    cases pre with
    | nil => simp at h
    | cons x pre =>
      simp only [List.cons_append, List.cons.injEq] at h
      obtain ⟨hx, h⟩ := h
      cases pre with
      | nil =>
        simp only [List.nil_append, List.cons.injEq, Event.close_domain.injEq] at h
        obtain ⟨⟨hd, _⟩, _⟩ := h
        exact ⟨[], by rw [← hx, hd]; rfl⟩
      | cons y pre =>
        simp only [List.cons_append, List.cons.injEq] at h
        obtain ⟨hy, h⟩ := h
        obtain ⟨pre2, hpre⟩ := ih pre post d r h
        exact ⟨x :: y :: pre2, by rw [hpre]; rfl⟩

theorem cycles_kinds (fabric : Fid) (info : fi_info) (ds : List (Fid × Int)) (e : Event)
    (he : e ∈ cycles fabric info ds) :
    e.failed = false ∧ e.isFabricOpen = false ∧ e.isFabricClose = false ∧
      e.isFreeHints = false := by
  rcases mem_cycles fabric info ds e he with ⟨d, rfl⟩ | ⟨d, r, rfl⟩
  · simp [Event.failed, Event.checked, Event.isFabricOpen, Event.isFabricClose,
      Event.isFreeHints]
  · simp [Event.failed, Event.checked, Event.isFabricOpen, Event.isFabricClose,
      Event.isFreeHints]

/-- The same as `close_after_open_cycles`, behind two leading events that are not
domain closes. -/
theorem close_after_open_run (fabric : Fid) (info : fi_info) (e1 e2 : Event)
    (h1 : e1.isDomainClose = false) (h2 : e2.isDomainClose = false) (tail : List Event)
    (htail : ∀ e ∈ tail, e.isDomainClose = false) (ds : List (Fid × Int))
    (pre post : List Event) (d : Fid) (r : Int)
    (h : e1 :: e2 :: (cycles fabric info ds ++ tail) = pre ++ .close_domain d r :: post) :
    ∃ pre2, pre = pre2 ++ [.domain fabric info 0 d] := by
  cases pre with
  | nil =>
    simp only [List.nil_append, List.cons.injEq] at h
    rw [h.1] at h1
    simp [Event.isDomainClose] at h1
  | cons x pre =>
    simp only [List.cons_append, List.cons.injEq] at h
    obtain ⟨hx, h⟩ := h
    cases pre with
    | nil =>
      simp only [List.nil_append, List.cons.injEq] at h
      rw [h.1] at h2
      simp [Event.isDomainClose] at h2
    | cons y pre =>
      simp only [List.cons_append, List.cons.injEq] at h
      obtain ⟨hy, h⟩ := h
      obtain ⟨pre2, hpre⟩ := close_after_open_cycles fabric info tail htail ds pre post d r h
      exact ⟨x :: y :: pre2, by rw [hpre]; rfl⟩

theorem domainLam_alloc_failed {σ : Type} (K : FiConsts) (B : Build) (L : Fabric σ) (s0 s1 : σ)
    (m : String) (hm : makeHints K L s0 = (.error m, s1)) :
    domainLam K B L s0 = ⟨[], .error m, s1⟩ := by
  simp [domainLam, hm]

/-! ## Error Translator -/

/-- C2: `CHECK` returns normally exactly when its status is zero, and for every
non-zero status (of either sign) it throws the message "Check failed file: ", the
file name, "(", line, ":", column, ") `", the enclosing function name, "`: " and
`fi_strerror` of the status. -/
theorem CHECK_raises_iff_nonzero (strerror : Int → String) (ret : Int)
    (location : SourceLocation) :
    (CHECK strerror ret location = .ok () ↔ ret = 0) ∧
    ((∃ m, CHECK strerror ret location = .error m) ↔ ret ≠ 0) ∧
    (ret ≠ 0 → CHECK strerror ret location
      = .error ("Check failed file: " ++ location.file_name ++ "(" ++ toString location.line
          ++ ":" ++ toString location.column ++ ") `" ++ location.function_name ++ "`: "
          ++ strerror ret)) := by
  by_cases h : ret = 0
  · subst h
    simp [CHECK]
  · simp [CHECK, h, checkMessage]

/-- C2 at the status `-22` reported from line 99. -/
theorem CHECK_raises_iff_nonzero_witness :
    (-22 : Int) ≠ 0 ∧
    CHECK (fun r => "error " ++ toString r) (-22) (build.location 99)
      = .error "Check failed file: main.cpp(99:12) `main()::<lambda()>`: error -22" :=
  ⟨by decide,
    (CHECK_raises_iff_nonzero (fun r => "error " ++ toString r) (-22) (build.location 99)).2.2
      (by decide)⟩

/-! ## Discovery/Hints Builder -/

/-- C8: `makeHints` throws "Hints allocation failed" exactly when `fi_allocinfo`
returns null; otherwise it returns the allocated descriptor with the fixed
configuration in every field it writes, so any two descriptors it returns agree in
all fields but their address. -/
theorem makeHints_fixed_configuration {σ : Type} (K : FiConsts) (L : Fabric σ) (s : σ) :
    ((makeHints K L s).1 = .error "Hints allocation failed" ↔ (L.fi_allocinfo s).1 = none) ∧
    ((∃ m, (makeHints K L s).1 = .error m) ↔ (L.fi_allocinfo s).1 = none) ∧
    (∀ a, (L.fi_allocinfo s).1 = some a →
      ∃ h, (makeHints K L s).1 = .ok h ∧ h.ptr = a.ptr ∧
        h.domain_attr.threading = K.FI_THREAD_SAFE ∧
        h.domain_attr.mr_mode
          = K.FI_MR_LOCAL ||| K.FI_MR_ALLOCATED ||| K.FI_MR_PROV_KEY ||| K.FI_MR_VIRT_ADDR ∧
        h.fabric_attr.prov_name = some "verbs" ∧
        h.domain_attr.name = none ∧
        h.domain_attr.resource_mgmt = K.FI_RM_ENABLED ∧
        h.ep_attr.type = K.FI_EP_RDM ∧
        h.ep_attr.protocol = K.FI_PROTO_RXM ∧
        h.addr_format = K.FI_FORMAT_UNSPEC ∧
        h.dest_addr = none ∧
        h.mode = K.FI_CONTEXT ∧
        h.domain_attr.control_progress = K.FI_PROGRESS_AUTO ∧
        h.domain_attr.data_progress = K.FI_PROGRESS_AUTO ∧
        h.caps = K.FI_MSG ||| K.FI_RMA ||| K.FI_TAGGED ||| K.FI_SOURCE ||| K.FI_DIRECTED_RECV ∧
        h.tx_attr.op_flags = K.FI_TRANSMIT_COMPLETE ∧
        h = fixedHints K a.ptr) ∧
    (∀ (τ : Type) (L2 : Fabric τ) (s2 : τ) (h h2 : fi_info),
      (makeHints K L s).1 = .ok h → (makeHints K L2 s2).1 = .ok h2 →
        { h with ptr := 0 } = { h2 with ptr := 0 }) ∧
    (makeHints K L s).2 = (L.fi_allocinfo s).2 := by
  have key : ∀ (τ : Type) (M : Fabric τ) (t : τ) (h : fi_info),
      (makeHints K M t).1 = .ok h → h = fixedHints K h.ptr := by
    intro τ M t h hh
    rcases ha : M.fi_allocinfo t with ⟨_ | a, t1⟩
    · simp [makeHints, ha] at hh
    · simp only [makeHints, ha, Except.ok.injEq] at hh
      subst hh
      rfl
  rcases ha : L.fi_allocinfo s with ⟨_ | a, s1⟩
  · refine ⟨by simp [makeHints, ha], by simp [makeHints, ha], by simp, ?_, by simp [makeHints, ha]⟩
    intro τ L2 s2 h h2 hh
    simp [makeHints, ha] at hh
  · refine ⟨by simp [makeHints, ha], by simp [makeHints, ha], ?_, ?_, by simp [makeHints, ha]⟩
    · intro a2 ha2
      simp only [Option.some.injEq] at ha2
      subst ha2
      have hh : (makeHints K L s).1 = .ok (fixedHints K a.ptr) := by
        simp only [makeHints, ha]
        rfl
      exact ⟨fixedHints K a.ptr, hh, rfl, rfl, rfl, rfl, rfl, rfl, rfl, rfl, rfl, rfl, rfl,
        rfl, rfl, rfl, rfl, rfl⟩
    · intro τ L2 s2 h h2 hh hh2
      have e1 := key σ L s h hh
      have e2 := key τ L2 s2 h2 hh2
      rw [e1, e2]
      rfl

/-- C8 at a library whose allocation succeeds. -/
theorem makeHints_fixed_configuration_witness :
    ∃ h, (makeHints consts (scripted true 0 0 (fun _ => 0) (fun _ => 0)) 5).1 = .ok h ∧
      h.ptr = 5 ∧ h.fabric_attr.prov_name = some "verbs" ∧ h.dest_addr = none ∧
      h.domain_attr.mr_mode = 116 ∧ h = fixedHints consts 5 := by
  obtain ⟨h, h1, h2, _, h4, h5, _, _, _, _, _, h11, _, _, _, _, _, h17⟩ :=
    (makeHints_fixed_configuration consts (scripted true 0 0 (fun _ => 0) (fun _ => 0)) 5).2.2.1
      ⟨5, 0, 0, 0, some 7, ⟨0, 0, some "x", 0, 0, 0⟩, ⟨none⟩, ⟨0, 0⟩, ⟨0⟩⟩ rfl
  exact ⟨h, h1, h2, h5, h11, by rw [h4]; decide, h17⟩

/-! ## Address Extractor -/

/-- C7 as amended: `getAddr` throws "Unexpected error" exactly when the first
`fi_getname` (null buffer, length 0) returns a status other than `-FI_ETOOSMALL`, or
reports length 0, or the second call is made and returns a non-zero status.  With `n`
the length the first call reported and the probe passed: when `n` is above
`max_size()` of the vector, `getAddr` throws `std::length_error` after that one call;
when `n` is within `max_size()` but cannot be allocated, it throws `std::bad_alloc`
after that one call; otherwise the second call gets a zeroed buffer of `n` bytes and
length `n`, and if it returns 0 then `getAddr` returns `n` bytes, whatever length the
second call wrote back: the zeroed buffer overwritten with what the second call
stored. -/
theorem getAddr_sizing_probe_within_max_size {σ : Type} (K : FiConsts) (X : Cxx)
    (L : Fabric σ) (s : σ) (endpoint : Fid) :
    let r1 := L.fi_getname s endpoint none 0
    let n := r1.1.len % (X.SIZE_MAX + 1)
    let r2 := L.fi_getname r1.2 endpoint (some (List.replicate n 0)) n
    let probeBad := r1.1.ret ≠ -(K.FI_ETOOSMALL : Int) ∨ n = 0
    let fits := n ≤ X.vector_max_size ∧ X.can_allocate n = true
    ((getAddr K X L s endpoint).result = .error (.runtime_error "Unexpected error") ↔
      probeBad ∨ (fits ∧ r2.1.ret ≠ 0)) ∧
    ((getAddr K X L s endpoint).result = .error .length_error ↔
      ¬ probeBad ∧ X.vector_max_size < n) ∧
    ((getAddr K X L s endpoint).result = .error .bad_alloc ↔
      ¬ probeBad ∧ n ≤ X.vector_max_size ∧ X.can_allocate n = false) ∧
    ((∃ e, (getAddr K X L s endpoint).result = .error e) ↔
      probeBad ∨ ¬ fits ∨ r2.1.ret ≠ 0) ∧
    (getAddr K X L s endpoint).calls.head? = some ⟨none, 0⟩ ∧
    (probeBad ∨ ¬ fits → (getAddr K X L s endpoint).calls = [⟨none, 0⟩]) ∧
    (¬ probeBad → fits →
      (getAddr K X L s endpoint).calls = [⟨none, 0⟩, ⟨some (List.replicate n 0), n⟩]) ∧
    (¬ probeBad → fits → r2.1.ret = 0 →
      ∃ data, (getAddr K X L s endpoint).result = .ok data ∧
        data.length = n ∧
        data = storeInto (List.replicate n 0) r2.1.written ∧
        (∀ i, i < r2.1.written.length → i < n → data[i]? = r2.1.written[i]?) ∧
        (∀ i, r2.1.written.length ≤ i → i < n → data[i]? = some 0)) := by
  intro r1 n r2 probeBad fits
  have hlen : (storeInto (List.replicate n 0) r2.1.written).length = n := by
    simp only [storeInto, List.length_append, List.length_take, List.length_drop,
      List.length_replicate]
    omega
  by_cases h1 : r1.1.ret ≠ -(K.FI_ETOOSMALL : Int) ∨ n ≤ 0
  · have hbad : probeBad := by
      rcases h1 with h | h
      · exact Or.inl h
      · exact Or.inr (by omega)
    have hres : (getAddr K X L s endpoint).result
        = .error (.runtime_error "Unexpected error") := by
      simp only [getAddr]
      rw [if_pos h1]
    have hcalls : (getAddr K X L s endpoint).calls = [⟨none, 0⟩] := by
      simp only [getAddr]
      rw [if_pos h1]
    refine ⟨by simp [hres, hbad], by simp [hres, hbad], by simp [hres, hbad],
      by simp [hres, hbad], by simp [hcalls], fun _ => hcalls, fun h => absurd hbad h,
      fun h => absurd hbad h⟩
  · have hn : n ≠ 0 := fun h => h1 (Or.inr (by omega))
    have hr : r1.1.ret = -(K.FI_ETOOSMALL : Int) := by
      by_contra h
      exact h1 (Or.inl h)
    have hgood : ¬ probeBad := by
      rintro (h | h)
      · exact h hr
      · exact hn h
    by_cases hmax : X.vector_max_size < n
    · have hres : (getAddr K X L s endpoint).result = .error .length_error := by
        simp only [getAddr]
        rw [if_neg h1, if_pos hmax]
      have hcalls : (getAddr K X L s endpoint).calls = [⟨none, 0⟩] := by
        simp only [getAddr]
        rw [if_neg h1, if_pos hmax]
      have hnle : ¬ n ≤ X.vector_max_size := by omega
      have hnfit : ¬ fits := fun h => hnle h.1
      refine ⟨by simp [hres, hgood, hnfit], by simp [hres, hgood, hmax],
        by simp [hres, hnle], by simp [hres, hnfit], by simp [hcalls], fun _ => hcalls,
        fun _ h => absurd h hnfit, fun _ h => absurd h hnfit⟩
    · have hle : n ≤ X.vector_max_size := by omega
      by_cases hal : X.can_allocate n = false
      · have hres : (getAddr K X L s endpoint).result = .error .bad_alloc := by
          simp only [getAddr]
          rw [if_neg h1, if_neg hmax, if_pos hal]
        have hcalls : (getAddr K X L s endpoint).calls = [⟨none, 0⟩] := by
          simp only [getAddr]
          rw [if_neg h1, if_neg hmax, if_pos hal]
        have hnfit : ¬ fits := fun h => by
          rw [h.2] at hal
          exact Bool.false_ne_true hal.symm
        refine ⟨by simp [hres, hgood, hnfit], by simp [hres, hmax],
          by simp [hres, hgood, hle, hal], by simp [hres, hnfit], by simp [hcalls],
          fun _ => hcalls, fun _ h => absurd h hnfit, fun _ h => absurd h hnfit⟩
      · have hal2 : X.can_allocate n = true := by simpa using hal
        have hfit : fits := ⟨hle, hal2⟩
        have hnn : ¬ (probeBad ∨ ¬ fits) := by
          rintro (h | h)
          · exact hgood h
          · exact h hfit
        by_cases h2 : r2.1.ret ≠ 0
        · have hres : (getAddr K X L s endpoint).result
              = .error (.runtime_error "Unexpected error") := by
            simp only [getAddr]
            rw [if_neg h1, if_neg hmax, if_neg hal, if_pos h2]
          have hcalls : (getAddr K X L s endpoint).calls
              = [⟨none, 0⟩, ⟨some (List.replicate n 0), n⟩] := by
            simp only [getAddr]
            rw [if_neg h1, if_neg hmax, if_neg hal, if_pos h2]
          refine ⟨⟨fun _ => Or.inr ⟨hfit, h2⟩, fun _ => hres⟩, by simp [hres, hmax],
            by simp [hres, hal2], by simp [hres, h2], by simp [hcalls], fun h => absurd h hnn,
            fun _ _ => hcalls, fun _ _ h => absurd h h2⟩
        · have hres : (getAddr K X L s endpoint).result
              = .ok (storeInto (List.replicate n 0) r2.1.written) := by
            simp only [getAddr]
            rw [if_neg h1, if_neg hmax, if_neg hal, if_neg h2]
          have hcalls : (getAddr K X L s endpoint).calls
              = [⟨none, 0⟩, ⟨some (List.replicate n 0), n⟩] := by
            simp only [getAddr]
            rw [if_neg h1, if_neg hmax, if_neg hal, if_neg h2]
          have hnone : ¬ (probeBad ∨ ¬ fits ∨ r2.1.ret ≠ 0) := by
            rintro (h | h | h)
            · exact hgood h
            · exact h hfit
            · exact h2 h
          have hnerr : ¬ ∃ e, (getAddr K X L s endpoint).result = .error e := by
            rintro ⟨e, he⟩
            rw [hres] at he
            cases he
          have hnrt : ¬ (probeBad ∨ (fits ∧ r2.1.ret ≠ 0)) := by
            rintro (h | h)
            · exact hgood h
            · exact h2 h.2
          refine ⟨⟨fun h => (by rw [hres] at h; cases h), fun h => absurd h hnrt⟩,
            by simp [hres, hmax], by simp [hres, hal2],
            ⟨fun h => absurd h hnerr, fun h => absurd h hnone⟩, by simp [hcalls],
            fun h => absurd h hnn,
            fun _ _ => hcalls, fun _ _ _ => ⟨_, hres, hlen, rfl, ?_, ?_⟩⟩
          · intro i hi hin
            simp only [storeInto, List.length_replicate]
            rw [List.getElem?_append_left (by simp; omega)]
            simp [List.getElem?_take, hin]
          · intro i hi hin
            simp only [storeInto, List.length_replicate]
            rw [List.getElem?_append_right (by simp; omega)]
            simp only [List.length_take, List.drop_replicate, List.getElem?_replicate]
            rw [if_pos (by omega)]

/-- C7 as amended, at a library that reports 4 bytes and then stores `10.0.0.1`. -/
theorem getAddr_sizing_probe_within_max_size_witness :
    ∃ data, (getAddr consts cxx (probing 4) 0 9).result = .ok data ∧
      data.length = 4 ∧ data = [10, 0, 0, 1] := by
  obtain ⟨data, h1, h2, h3, _⟩ :=
    (getAddr_sizing_probe_within_max_size consts cxx (probing 4) 0 9).2.2.2.2.2.2.2
      (by decide) (by decide) (by decide)
  exact ⟨data, h1, h2, by rw [h3]; decide⟩

/-- C7 fails as stated: a library answers the probe with `-FI_ETOOSMALL` and the length
`2^64 - 1`, and would answer the second call with 0; none of the three conditions for
"Unexpected error" holds, yet `getAddr` makes no second call and returns nothing: the
vector constructor throws `std::length_error`. -/
theorem getAddr_length_error_on_huge_probe :
    ((probing (2 ^ 64 - 1)).fi_getname 0 9 none 0).1.ret = -(consts.FI_ETOOSMALL : Int) ∧
    ((probing (2 ^ 64 - 1)).fi_getname 0 9 none 0).1.len % (cxx.SIZE_MAX + 1) = 2 ^ 64 - 1 ∧
    (∀ buf, ((probing (2 ^ 64 - 1)).fi_getname 1 9 (some buf) (2 ^ 64 - 1)).1.ret = 0) ∧
    (getAddr consts cxx (probing (2 ^ 64 - 1)) 0 9).result = .error .length_error ∧
    (getAddr consts cxx (probing (2 ^ 64 - 1)) 0 9).calls = [⟨none, 0⟩] :=
  ⟨by decide, by decide, fun _ => rfl, rfl, by decide⟩

/-! ## Memory Pressure Worker -/

theorem memset_newCharArray (heap : Nat → Nat) (c : Int) (n : Nat) :
    memset (newCharArray heap n) c n = List.replicate n (c % 256).toNat := by
  simp [memset, newCharArray]

theorem mem_bufOperationsLam_trace (stop : Nat → Bool) (heap : Nat → Nat → Nat) :
    ∀ (fuel tick : Nat) (e : BufEvent), e ∈ (bufOperationsLam stop heap fuel tick).trace →
      (∃ t b, e = .stop_requested t b) ∨ (∃ t, e = .new_array t bufferSize) ∨
      (∃ t h, e = .memset t (memset (newCharArray h bufferSize) 321 bufferSize)) ∨
      (∃ t, e = .delete_array t) := by
  intro fuel
  induction fuel with
  | zero =>
    intro tick e he
    simp [bufOperationsLam] at he
  | succ fuel ih =>
    intro tick e he
    by_cases hs : stop tick = true
    · simp only [bufOperationsLam, hs, if_true, List.mem_singleton] at he
      exact Or.inl ⟨_, _, he⟩
    · simp only [bufOperationsLam, hs, Bool.false_eq_true, if_false, List.mem_cons] at he
      rcases he with he | he | he | he | he
      · exact Or.inl ⟨_, _, he⟩
      · exact Or.inr (Or.inl ⟨_, he⟩)
      · exact Or.inr (Or.inr (Or.inl ⟨_, _, he⟩))
      · exact Or.inr (Or.inr (Or.inr ⟨_, he⟩))
      · exact ih _ e he

/-- One pass through the loop body: a read of the flag that finds it not set is
followed by the allocation, the fill and the release of lines 113-115, and then by the
rest of the loop. -/
theorem bufOperationsLam_iteration (stop : Nat → Bool) (heap : Nat → Nat → Nat)
    (fuel tick : Nat) (hs : stop tick = false) :
    (bufOperationsLam stop heap (fuel + 1) tick).trace
      = .stop_requested tick false :: .new_array (tick + 1) bufferSize
          :: .memset (tick + 2) (memset (newCharArray (heap (tick + 1)) bufferSize) 321 bufferSize)
          :: .delete_array (tick + 3) :: (bufOperationsLam stop heap fuel (tick + 4)).trace := by
  simp only [bufOperationsLam, hs, Bool.false_eq_true, if_false]

/-- Wherever a run reads the flag and finds it not set, the next three steps are the
allocation, the fill and the release of one buffer. -/
theorem read_false_starts_iteration (stop : Nat → Bool) (heap : Nat → Nat → Nat) :
    ∀ (fuel tick : Nat) (pre post : List BufEvent) (t : Nat),
      (bufOperationsLam stop heap fuel tick).trace = pre ++ .stop_requested t false :: post →
        ∃ post2, post = .new_array (t + 1) bufferSize
          :: .memset (t + 2) (memset (newCharArray (heap (t + 1)) bufferSize) 321 bufferSize)
          :: .delete_array (t + 3) :: post2 := by
  intro fuel
  induction fuel with
  | zero =>
    intro tick pre post t h
    simp [bufOperationsLam] at h
  | succ fuel ih =>
    intro tick pre post t h
    by_cases hs : stop tick = true
    · simp only [bufOperationsLam, hs, if_true] at h
      cases pre with
      | nil => simp at h
      | cons x pre => simp at h
    · have hs2 : stop tick = false := by simpa using hs
      rw [bufOperationsLam_iteration stop heap fuel tick hs2] at h
      cases pre with
      | nil =>
        simp only [List.nil_append, List.cons.injEq, BufEvent.stop_requested.injEq,
          and_true] at h
        obtain ⟨ht, hpost⟩ := h
        subst ht
        exact ⟨_, hpost.symm⟩
      | cons x0 pre =>
        simp only [List.cons_append, List.cons.injEq] at h
        obtain ⟨_, h⟩ := h
        cases pre with
        | nil =>
          simp only [List.nil_append, List.cons.injEq] at h
          exact absurd h.1 (by intro hc; cases hc)
        | cons x1 pre =>
          simp only [List.cons_append, List.cons.injEq] at h
          obtain ⟨_, h⟩ := h
          cases pre with
          | nil =>
            simp only [List.nil_append, List.cons.injEq] at h
            exact absurd h.1 (by intro hc; cases hc)
          | cons x2 pre =>
            simp only [List.cons_append, List.cons.injEq] at h
            obtain ⟨_, h⟩ := h
            cases pre with
            | nil =>
              simp only [List.nil_append, List.cons.injEq] at h
              exact absurd h.1 (by intro hc; cases hc)
            | cons x3 pre =>
              simp only [List.cons_append, List.cons.injEq] at h
              exact ih (tick + 4) pre post t h.2

/-- C9: the buffer of an iteration has exactly 51 * 4096 = 208896 bytes, and after
`memset(ptr, 321, bufferSize)` every one of them is 321 mod 256 = 65, whatever the
heap held before; this holds for the buffer of every iteration of every run.  Each
iteration does allocate and fill: a pass through the loop body with the flag not set
consists of the read of the flag, the allocation of 208896 bytes, the fill that leaves
208896 bytes equal to 65, and the release; and in every run every read of the flag
that finds it not set is followed at once by exactly these three steps. -/
theorem pressure_buffer_filled_with_65 :
    bufferSize = 51 * 4096 ∧ bufferSize = 208896 ∧ ((321 : Int) % 256).toNat = 65 ∧
    (∀ heap : Nat → Nat, (newCharArray heap bufferSize).length = 208896) ∧
    (∀ heap : Nat → Nat,
      memset (newCharArray heap bufferSize) 321 bufferSize = List.replicate 208896 65) ∧
    (∀ (stop : Nat → Bool) (heap : Nat → Nat → Nat) (fuel tick : Nat) (e : BufEvent),
      e ∈ (bufOperationsLam stop heap fuel tick).trace →
        (∀ t size, e = .new_array t size → size = 208896) ∧
        (∀ t contents, e = .memset t contents →
          contents.length = 208896 ∧ ∀ i, i < 208896 → contents[i]? = some 65)) ∧
    (∀ (stop : Nat → Bool) (heap : Nat → Nat → Nat) (fuel tick : Nat), stop tick = false →
      (bufOperationsLam stop heap (fuel + 1) tick).trace
        = .stop_requested tick false :: .new_array (tick + 1) 208896
            :: .memset (tick + 2) (List.replicate 208896 65)
            :: .delete_array (tick + 3) :: (bufOperationsLam stop heap fuel (tick + 4)).trace) ∧
    (∀ (stop : Nat → Bool) (heap : Nat → Nat → Nat) (fuel tick : Nat)
      (pre post : List BufEvent) (t : Nat),
      (bufOperationsLam stop heap fuel tick).trace = pre ++ .stop_requested t false :: post →
        ∃ post2, post = .new_array (t + 1) 208896
          :: .memset (t + 2) (List.replicate 208896 65) :: .delete_array (t + 3) :: post2) := by
  have hsize : bufferSize = 208896 := by decide
  have hfill : ∀ heap : Nat → Nat,
      memset (newCharArray heap bufferSize) 321 bufferSize = List.replicate 208896 65 := by
    intro heap
    have hv : ((321 : Int) % 256).toNat = 65 := by decide
    rw [memset_newCharArray, hsize, hv]
  refine ⟨by decide, hsize, by decide, ?_, hfill, ?_, ?_, ?_⟩
  · intro heap
    rw [hsize]
    simp only [newCharArray, List.length_map, List.length_range]
  · intro stop heap fuel tick e he
    rcases mem_bufOperationsLam_trace stop heap fuel tick e he with
      ⟨t, b, rfl⟩ | ⟨t, rfl⟩ | ⟨t, h, rfl⟩ | ⟨t, rfl⟩
    · exact ⟨fun _ _ h => (by cases h), fun _ _ h => (by cases h)⟩
    · refine ⟨?_, fun _ _ h => (by cases h)⟩
      intro t2 size h
      cases h
      exact hsize
    · refine ⟨fun _ _ h => (by cases h), ?_⟩
      intro t2 contents h
      cases h
      rw [hfill]
      refine ⟨List.length_replicate _ _, ?_⟩
      intro i hi
      rw [List.getElem?_replicate, if_pos hi]
    · exact ⟨fun _ _ h => (by cases h), fun _ _ h => (by cases h)⟩
  · intro stop heap fuel tick hs
    rw [bufOperationsLam_iteration stop heap fuel tick hs, hfill, hsize]
  · intro stop heap fuel tick pre post t h
    obtain ⟨post2, hpost⟩ := read_false_starts_iteration stop heap fuel tick pre post t h
    rw [hfill, hsize] at hpost
    exact ⟨post2, hpost⟩

/-- C9 at the first iteration of a worker that is stopped at step 3: after the read of
step 0 the worker allocates 208896 bytes, leaves them all equal to 65, and releases
them. -/
theorem pressure_buffer_filled_with_65_witness :
    ∃ post2, (bufOperationsLam (fun t => decide (3 ≤ t)) (fun _ i => i) 2 0).trace.tail
      = .new_array 1 208896 :: .memset 2 (List.replicate 208896 65) :: .delete_array 3
          :: post2 := by
  have hsplit : (bufOperationsLam (fun t => decide (3 ≤ t)) (fun _ i => i) 2 0).trace
      = [] ++ BufEvent.stop_requested 0 false
          :: (bufOperationsLam (fun t => decide (3 ≤ t)) (fun _ i => i) 2 0).trace.tail := by
    rw [bufOperationsLam_iteration _ _ 1 0 (by decide)]
    rfl
  exact pressure_buffer_filled_with_65.2.2.2.2.2.2.2 (fun t => decide (3 ≤ t)) (fun _ i => i) 2 0
    [] _ 0 hsplit

/-- The loop of the pressure worker, started at step `tick` with the flag set at some
later read `tick + 4 * j` within the allowance: it runs `k` full iterations, `k` the
first read that finds the flag set, and returns at that read. -/
theorem bufOperationsLam_shape (stop : Nat → Bool) (heap : Nat → Nat → Nat) :
    ∀ (fuel tick j : Nat), stop (tick + 4 * j) = true → j < fuel →
      ∃ k, k ≤ j ∧ (∀ i, i < k → stop (tick + 4 * i) = false) ∧
        stop (tick + 4 * k) = true ∧
        (bufOperationsLam stop heap fuel tick).returned = true ∧
        (bufOperationsLam stop heap fuel tick).trace
          = pressureCycles heap k tick ++ [.stop_requested (tick + 4 * k) true] := by
  intro fuel
  induction fuel with
  | zero =>
    intro tick j _ hj
    omega
  | succ fuel ih =>
    intro tick j hstop hj
    by_cases hs : stop tick = true
    · refine ⟨0, Nat.zero_le _, fun i hi => by omega, by simpa using hs, ?_, ?_⟩
      · simp [bufOperationsLam, hs]
      · simp [bufOperationsLam, hs, pressureCycles]
    · have hs2 : stop tick = false := by simpa using hs
      cases j with
      | zero =>
        rw [Nat.mul_zero, Nat.add_zero] at hstop
        exact absurd hstop hs
      | succ j =>
        have hstop2 : stop (tick + 4 + 4 * j) = true := by
          rw [← hstop]
          congr 1
          omega
        obtain ⟨k, hk, hfalse, htrue, hret, htr⟩ := ih (tick + 4) j hstop2 (by omega)
        refine ⟨k + 1, by omega, ?_, ?_, ?_, ?_⟩
        · intro i hi
          cases i with
          | zero => simpa using hs2
          | succ i =>
            have := hfalse i (by omega)
            rw [← this]
            congr 1
            omega
        · rw [← htrue]
          congr 1
          omega
        · simp [bufOperationsLam, hs2, hret]
        · have e : tick + 4 * (k + 1) = tick + 4 + 4 * k := by omega
          simp only [bufOperationsLam, hs2, Bool.false_eq_true, if_false, htr, pressureCycles,
            pressureCycle, e]
          rfl

theorem count_new_pressureCycles (heap : Nat → Nat → Nat) (t0 : Nat) :
    ∀ (k tick : Nat), (∀ i, i < k → tick + 4 * i < t0) →
      (pressureCycles heap k tick).countP (fun e => e.isNew && decide (t0 ≤ e.tick)) ≤ 1 := by
  intro k
  induction k with
  | zero =>
    intro tick _
    simp [pressureCycles]
  | succ k ih =>
    intro tick h
    have hrest := ih (tick + 4) (fun i hi => by
      have := h (i + 1) (by omega)
      omega)
    simp only [pressureCycles, pressureCycle, List.cons_append, List.nil_append,
      List.countP_cons, BufEvent.isNew, BufEvent.tick, Bool.false_and, Bool.true_and,
      Bool.false_eq_true, if_false, Nat.add_zero, decide_eq_true_eq]
    cases k with
    | zero =>
      simp only [pressureCycles, List.countP_nil, Nat.zero_add]
      split <;> omega
    | succ k =>
      have := h 1 (by omega)
      rw [if_neg (by omega)]
      simpa using hrest

theorem count_new_delete_pressureCycles (heap : Nat → Nat → Nat) :
    ∀ (k tick : Nat),
      (pressureCycles heap k tick).countP BufEvent.isNew = k ∧
      (pressureCycles heap k tick).countP BufEvent.isDelete = k := by
  intro k
  induction k with
  | zero =>
    intro tick
    simp [pressureCycles]
  | succ k ih =>
    intro tick
    obtain ⟨h1, h2⟩ := ih (tick + 4)
    simp only [pressureCycles, pressureCycle, List.cons_append, List.nil_append,
      List.countP_cons, BufEvent.isNew, BufEvent.isDelete, h1, h2]
    simp

/-- C10: with a stop flag that stays set once set and is set at step `t0`, the
pressure worker returns, and its steps are `k` iterations, each one read of the flag
that finds it not set followed by allocate, fill and free, and then one last read
that finds the flag set, after which nothing follows.  At most one allocation happens
at step `t0` or later, the last free happens at most two steps after `t0`, and there
are as many frees as allocations. -/
theorem pressure_worker_stops_within_one_cycle (stop : Nat → Bool) (heap : Nat → Nat → Nat)
    (t0 fuel : Nat) (hmono : ∀ a b, a ≤ b → stop a = true → stop b = true)
    (hset : stop t0 = true) (hfuel : t0 < fuel) :
    ∃ k, (bufOperationsLam stop heap fuel 0).returned = true ∧
      (bufOperationsLam stop heap fuel 0).trace
        = pressureCycles heap k 0 ++ [.stop_requested (4 * k) true] ∧
      (∀ i, i < k → stop (4 * i) = false) ∧ stop (4 * k) = true ∧
      (∀ i, i < k → 4 * i < t0) ∧
      ((bufOperationsLam stop heap fuel 0).trace.countP
        (fun e => e.isNew && decide (t0 ≤ e.tick)) ≤ 1) ∧
      (∀ e ∈ (bufOperationsLam stop heap fuel 0).trace, e.isDelete = true → e.tick ≤ t0 + 2) ∧
      (bufOperationsLam stop heap fuel 0).trace.countP BufEvent.isNew = k ∧
      (bufOperationsLam stop heap fuel 0).trace.countP BufEvent.isDelete = k := by
  have hlate : stop (0 + 4 * t0) = true := hmono t0 _ (by omega) hset
  obtain ⟨k, _, hfalse, htrue, hret, htr⟩ := bufOperationsLam_shape stop heap fuel 0 t0 hlate hfuel
  simp only [Nat.zero_add] at hfalse htrue htr
  have hbefore : ∀ i, i < k → 4 * i < t0 := by
    intro i hi
    by_contra hge
    have h1 := hmono t0 (4 * i) (by omega) hset
    rw [hfalse i hi] at h1
    exact Bool.false_ne_true h1
  have hb2 : ∀ i, i < k → 0 + 4 * i < t0 := fun i hi => by
    have := hbefore i hi
    omega
  obtain ⟨hn, hd⟩ := count_new_delete_pressureCycles heap k 0
  have hdel : ∀ (k tick : Nat) (e : BufEvent), e ∈ pressureCycles heap k tick →
      e.isDelete = true → ∃ i, i < k ∧ e.tick = tick + 4 * i + 3 := by
    intro k
    induction k with
    | zero =>
      intro tick e he
      simp [pressureCycles] at he
    | succ k ih =>
      intro tick e he hde
      simp only [pressureCycles, pressureCycle, List.cons_append, List.nil_append,
        List.mem_cons] at he
      rcases he with rfl | rfl | rfl | rfl | he
      · simp [BufEvent.isDelete] at hde
      · simp [BufEvent.isDelete] at hde
      · simp [BufEvent.isDelete] at hde
      · exact ⟨0, by omega, by simp [BufEvent.tick]⟩
      · obtain ⟨i, hi, hte⟩ := ih (tick + 4) e he hde
        exact ⟨i + 1, by omega, by omega⟩
  refine ⟨k, hret, htr, hfalse, htrue, hbefore, ?_, ?_, ?_, ?_⟩
  · rw [htr, List.countP_append]
    have := count_new_pressureCycles heap t0 k 0 hb2
    simpa [BufEvent.isNew] using this
  · intro e he hde
    rw [htr, List.mem_append] at he
    rcases he with he | he
    · obtain ⟨i, hi, hte⟩ := hdel k 0 e he hde
      have := hbefore i hi
      omega
    · rw [List.mem_singleton] at he
      subst he
      simp [BufEvent.isDelete] at hde
  · rw [htr, List.countP_append, hn]
    simp [BufEvent.isNew]
  · rw [htr, List.countP_append, hd]
    simp [BufEvent.isDelete]

/-- C10 at a flag that is set from step 5 on: the worker is inside its second
iteration when the flag is set, finishes it, and returns at the read of step 8. -/
theorem pressure_worker_stops_within_one_cycle_witness :
    ∃ k, (bufOperationsLam (fun t => decide (5 ≤ t)) (fun _ i => i) 6 0).returned = true ∧
      (bufOperationsLam (fun t => decide (5 ≤ t)) (fun _ i => i) 6 0).trace
        = pressureCycles (fun _ i => i) k 0 ++ [.stop_requested (4 * k) true] ∧
      k = 2 := by
  obtain ⟨k, h1, h2, h3, h4, h5, _⟩ :=
    pressure_worker_stops_within_one_cycle (fun t => decide (5 ≤ t)) (fun _ i => i) 5 6
      (fun a b hab ha => by
        simp only [decide_eq_true_eq] at ha
        simp only [decide_eq_true_eq]
        omega)
      (by decide) (by decide)
  refine ⟨k, h1, h2, ?_⟩
  simp only [decide_eq_true_eq] at h4
  have hk : ¬ 2 < k := fun hlt => by
    have := h5 2 hlt
    omega
  omega

/-! ## Domain Lifecycle Worker -/

/-- C4: in the trace of a run of `domainLam`, against any library, every domain close
comes immediately after a domain open that returned `0`, and it closes the handle
which that open stored; so no close is issued for a failed or missing open. -/
theorem domain_close_follows_successful_open {σ : Type} (K : FiConsts) (B : Build)
    (L : Fabric σ) (s0 : σ) (pre post : List Event) (d : Fid) (r : Int)
    (h : (domainLam K B L s0).trace = pre ++ .close_domain d r :: post) :
    ∃ pre2 fabric info, pre = pre2 ++ [.domain fabric info 0 d] := by
  have hmem : Event.close_domain d r ∈ (domainLam K B L s0).trace := by
    rw [h]
    simp
  rcases hm : makeHints K L s0 with ⟨m | hints, s1⟩
  · rw [domainLam_alloc_failed K B L s0 s1 m hm] at hmem
    simp at hmem
  · obtain ⟨ret1, info, _, hshape⟩ := domainLam_shape K B L s0 s1 hints hm
    rcases hshape with ⟨_, htr, _⟩ | ⟨_, ret2, fabric, _, _, htr, _⟩ |
      ⟨_, fabric, ds, ret, d2, _, _, _, _, htr, _⟩ | ⟨_, fabric, ds, r2, _, _, _, _, htr, _⟩
    · rw [htr] at hmem
      simp at hmem
    · rw [htr] at hmem
      simp at hmem
    · rw [htr] at h
      obtain ⟨pre2, hpre⟩ := close_after_open_run fabric info _ _ (by rfl) (by rfl) _
        (by simp [Event.isDomainClose]) ds pre post d r h
      exact ⟨pre2, fabric, info, hpre⟩
    · rw [htr] at h
      obtain ⟨pre2, hpre⟩ := close_after_open_run fabric info _ _ (by rfl) (by rfl) _
        (by simp [Event.isDomainClose]) ds pre post d r h
      exact ⟨pre2, fabric, info, hpre⟩

set_option maxRecDepth 100000 in
/-- C4 at the first domain close of a run in which every call succeeds: the fourth
call of the run closes handle 3, which the third call opened. -/
theorem domain_close_follows_successful_open_witness :
    ∃ pre2 fabric info,
      (domainLam consts build (scripted true 0 0 (fun _ => 0) (fun _ => 0)) 0).trace.take 3
        = pre2 ++ [.domain fabric info 0 3] :=
  domain_close_follows_successful_open consts build
    (scripted true 0 0 (fun _ => 0) (fun _ => 0)) 0
    ((domainLam consts build (scripted true 0 0 (fun _ => 0) (fun _ => 0)) 0).trace.take 3)
    ((domainLam consts build (scripted true 0 0 (fun _ => 0) (fun _ => 0)) 0).trace.drop 4)
    3 0 (by decide)

/-- C5: in the trace of a run of `domainLam`, against any library, the fabric is
opened at most once and closed at most once; and at a fabric close, the calls before
it contain as many successful domain opens as domain closes, a successful open of the
fabric being closed, and no other fabric close, while the calls after it contain no
domain open, no domain close and no fabric close. -/
theorem fabric_closed_after_all_domains {σ : Type} (K : FiConsts) (B : Build)
    (L : Fabric σ) (s0 : σ) :
    (domainLam K B L s0).trace.countP Event.isFabricOpen ≤ 1 ∧
    (domainLam K B L s0).trace.countP Event.isFabricClose ≤ 1 ∧
    ∀ (pre post : List Event) (f : Fid) (r : Int),
      (domainLam K B L s0).trace = pre ++ .close_fabric f r :: post →
        pre.countP Event.isDomainOpened = pre.countP Event.isDomainClose ∧
        (∃ attr, Event.fabric attr 0 f ∈ pre) ∧
        (∀ e ∈ pre, e.isFabricClose = false) ∧
        (∀ e ∈ post, e.isDomainOpen = false ∧ e.isDomainClose = false ∧
          e.isFabricClose = false) := by
  have hnone : ∀ f r, (∀ e ∈ (domainLam K B L s0).trace, e.isFabricClose = false) →
      ∀ pre post, (domainLam K B L s0).trace = pre ++ Event.close_fabric f r :: post →
        False := by
    intro f r hall pre post h
    have := hall (.close_fabric f r) (by rw [h]; simp)
    simp [Event.isFabricClose] at this
  rcases hm : makeHints K L s0 with ⟨m | hints, s1⟩
  · have htr : (domainLam K B L s0).trace = [] := by
      rw [domainLam_alloc_failed K B L s0 s1 m hm]
    refine ⟨by simp [htr], by simp [htr], ?_⟩
    intro pre post f r h
    exact (hnone f r (by simp [htr]) pre post h).elim
  · obtain ⟨ret1, info, _, hshape⟩ := domainLam_shape K B L s0 s1 hints hm
    rcases hshape with ⟨_, htr, _⟩ | ⟨_, ret2, fabric, _, _, htr, _⟩ |
      ⟨_, fabric, ds, ret, d2, _, _, _, _, htr, _⟩ | ⟨_, fabric, ds, r2, _, _, _, _, htr, _⟩
    · refine ⟨by simp [htr, Event.isFabricOpen], by simp [htr, Event.isFabricClose], ?_⟩
      intro pre post f r h
      exact (hnone f r (by simp [htr, Event.isFabricClose]) pre post h).elim
    · refine ⟨by simp [htr, Event.isFabricOpen], by simp [htr, Event.isFabricClose], ?_⟩
      intro pre post f r h
      exact (hnone f r (by simp [htr, Event.isFabricClose]) pre post h).elim
    · have hfo : (cycles fabric info ds).countP Event.isFabricOpen = 0 :=
        List.countP_eq_zero.mpr (fun e he => by
          simp [(cycles_kinds fabric info ds e he).2.1])
      have hfc : ∀ e ∈ (domainLam K B L s0).trace, e.isFabricClose = false := by
        intro e he
        rw [htr] at he
        simp only [List.mem_cons, List.mem_append, List.mem_singleton, List.not_mem_nil,
          or_false] at he
        rcases he with rfl | rfl | he | rfl
        · rfl
        · rfl
        · exact (cycles_kinds fabric info ds e he).2.2.1
        · rfl
      refine ⟨?_, ?_, ?_⟩
      · rw [htr]
        simp [List.countP_cons, List.countP_append, hfo, Event.isFabricOpen]
      · rw [List.countP_eq_zero.mpr (fun e he => by simp [hfc e he])]
        exact Nat.zero_le _
      · intro pre post f r h
        exact (hnone f r hfc pre post h).elim
    · have hfo : (cycles fabric info ds).countP Event.isFabricOpen = 0 :=
        List.countP_eq_zero.mpr (fun e he => by
          simp [(cycles_kinds fabric info ds e he).2.1])
      have hfc : (cycles fabric info ds).countP Event.isFabricClose = 0 :=
        List.countP_eq_zero.mpr (fun e he => by
          simp [(cycles_kinds fabric info ds e he).2.2.1])
      refine ⟨?_, ?_, ?_⟩
      · rw [htr]
        simp [List.countP_cons, List.countP_append, hfo, Event.isFabricOpen]
      · rw [htr]
        simp [List.countP_cons, List.countP_append, hfc, Event.isFabricClose]
      · intro pre post f r h
        rw [htr] at h
        have hA : ∀ a ∈ Event.getinfo (L.fi_version s1) none none 0 hints ret1 info
            :: Event.fabric info.fabric_attr 0 fabric :: cycles fabric info ds,
            a.isFabricClose = false := by
          intro a ha
          simp only [List.mem_cons] at ha
          rcases ha with rfl | rfl | ha
          · rfl
          · rfl
          · exact (cycles_kinds fabric info ds a ha).2.2.1
        obtain ⟨hpre, hy, hpost⟩ := split_unique Event.isFabricClose
          (Event.getinfo (L.fi_version s1) none none 0 hints ret1 info
            :: Event.fabric info.fabric_attr 0 fabric :: cycles fabric info ds)
          [Event.freeinfo_info info, Event.freeinfo_hints { hints with dest_addr := none }]
          pre post (Event.close_fabric fabric r2) (Event.close_fabric f r) hA
          (by simp [Event.isFabricClose]) rfl (by simpa using h)
        simp only [Event.close_fabric.injEq] at hy
        obtain ⟨c1, c2, _⟩ := cycles_counts fabric info ds
        refine ⟨?_, ⟨info.fabric_attr, ?_⟩, ?_, ?_⟩
        · rw [hpre]
          simp [List.countP_cons, c1, c2, Event.isDomainOpened, Event.isDomainClose]
        · rw [hpre, hy.1]
          simp
        · rw [hpre]
          exact hA
        · rw [hpost]
          simp [Event.isDomainOpen, Event.isDomainClose, Event.isFabricClose]

set_option maxRecDepth 100000 in
/-- C5 at the fabric close of a run in which every call succeeds: it is call 1003 of
the run, after 500 opens and 500 closes of a domain. -/
theorem fabric_closed_after_all_domains_witness :
    ((domainLam consts build (scripted true 0 0 (fun _ => 0) (fun _ => 0)) 0).trace.take
        1002).countP Event.isDomainOpened = 500 ∧
    ((domainLam consts build (scripted true 0 0 (fun _ => 0) (fun _ => 0)) 0).trace.take
        1002).countP Event.isDomainOpened
      = ((domainLam consts build (scripted true 0 0 (fun _ => 0) (fun _ => 0)) 0).trace.take
          1002).countP Event.isDomainClose :=
  ⟨by decide!,
    ((fabric_closed_after_all_domains consts build
        (scripted true 0 0 (fun _ => 0) (fun _ => 0)) 0).2.2
      ((domainLam consts build (scripted true 0 0 (fun _ => 0) (fun _ => 0)) 0).trace.take 1002)
      ((domainLam consts build (scripted true 0 0 (fun _ => 0) (fun _ => 0)) 0).trace.drop 1003)
      2 0 (by decide!)).1⟩

/-- C1 as amended: a non-zero status of the resource query, of the fabric open or of
a domain open ends the run at that call, with the error of `CHECK` for that call and
its line; the status of a domain close or of the fabric close is not looked at, so a
run returns normally exactly when `makeHints` returned a descriptor and none of the
three checked kinds of call returned a non-zero status. -/
theorem checked_call_failure_is_fatal {σ : Type} (K : FiConsts) (B : Build) (L : Fabric σ)
    (s0 : σ) :
    (∀ (pre post : List Event) (e : Event) (ret : Int),
      (domainLam K B L s0).trace = pre ++ e :: post → e.checked = some ret → ret ≠ 0 →
        post = [] ∧
        (domainLam K B L s0).result
          = .error (checkMessage L.fi_strerror ret (B.location e.line))) ∧
    ((domainLam K B L s0).result = .ok () ↔
      (∃ hints, (makeHints K L s0).1 = .ok hints) ∧
      ∀ e ∈ (domainLam K B L s0).trace, e.failed = false) := by
  have hfailed : ∀ (e : Event) (ret : Int), e.checked = some ret → ret ≠ 0 →
      e.failed = true := by
    intro e ret h1 h2
    simp [Event.failed, h1, h2]
  have hnone : (∀ e ∈ (domainLam K B L s0).trace, e.failed = false) →
      ∀ (pre post : List Event) (e : Event) (ret : Int),
        (domainLam K B L s0).trace = pre ++ e :: post → e.checked = some ret → ret ≠ 0 →
          False := by
    intro hall pre post e ret h h1 h2
    have := hall e (by rw [h]; simp)
    rw [hfailed e ret h1 h2] at this
    exact Bool.false_ne_true this.symm
  rcases hm : makeHints K L s0 with ⟨m | hints, s1⟩
  · have hrun := domainLam_alloc_failed K B L s0 s1 m hm
    refine ⟨?_, ?_⟩
    · intro pre post e ret h
      rw [hrun] at h
      simp at h
    · simp [hrun]
  · obtain ⟨ret1, info, _, hshape⟩ := domainLam_shape K B L s0 s1 hints hm
    rcases hshape with ⟨hne, htr, hres⟩ | ⟨h0, ret2, fabric, _, hne, htr, hres⟩ |
      ⟨h0, fabric, ds, ret3, d2, _, _, hne, _, htr, hres⟩ |
      ⟨h0, fabric, ds, r2, _, _, _, _, htr, hres⟩
    · refine ⟨?_, ?_⟩
      · intro pre post e ret h h1 h2
        rw [htr] at h
        obtain ⟨_, hy, hpost⟩ := split_unique Event.failed [] [] pre post _ e (by simp)
          (by simp) (hfailed e ret h1 h2) (by simpa using h)
        subst hy
        simp only [Event.checked, Option.some.injEq] at h1
        subst h1
        exact ⟨hpost, hres⟩
      · rw [hres]
        refine ⟨fun h => (by cases h), fun hall => ?_⟩
        have := hall.2 (Event.getinfo (L.fi_version s1) none none 0 hints ret1 info) (by rw [htr]; simp)
        simp [Event.failed, Event.checked, hne] at this
    · subst h0
      refine ⟨?_, ?_⟩
      · intro pre post e ret h h1 h2
        rw [htr] at h
        obtain ⟨_, hy, hpost⟩ := split_unique Event.failed
          [Event.getinfo (L.fi_version s1) none none 0 hints 0 info] [] pre post _ e
          (by simp [Event.failed, Event.checked]) (by simp) (hfailed e ret h1 h2)
          (by simpa using h)
        subst hy
        simp only [Event.checked, Option.some.injEq] at h1
        subst h1
        exact ⟨hpost, hres⟩
      · rw [hres]
        refine ⟨fun h => (by cases h), fun hall => ?_⟩
        have := hall.2 (Event.fabric info.fabric_attr ret2 fabric) (by rw [htr]; simp)
        simp [Event.failed, Event.checked, hne] at this
    · subst h0
      refine ⟨?_, ?_⟩
      · intro pre post e ret h h1 h2
        rw [htr] at h
        have hA : ∀ a ∈ Event.getinfo (L.fi_version s1) none none 0 hints 0 info
            :: Event.fabric info.fabric_attr 0 fabric :: cycles fabric info ds,
            a.failed = false := by
          intro a ha
          simp only [List.mem_cons] at ha
          rcases ha with rfl | rfl | ha
          · rfl
          · rfl
          · exact (cycles_kinds fabric info ds a ha).1
        obtain ⟨_, hy, hpost⟩ := split_unique Event.failed
          (Event.getinfo (L.fi_version s1) none none 0 hints 0 info
            :: Event.fabric info.fabric_attr 0 fabric :: cycles fabric info ds) [] pre post
          (Event.domain fabric info ret3 d2) e hA (by simp) (hfailed e ret h1 h2)
          (by simpa using h)
        subst hy
        simp only [Event.checked, Option.some.injEq] at h1
        subst h1
        exact ⟨hpost, hres⟩
      · rw [hres]
        refine ⟨fun h => (by cases h), fun hall => ?_⟩
        have := hall.2 (Event.domain fabric info ret3 d2) (by rw [htr]; simp)
        simp [Event.failed, Event.checked, hne] at this
    · subst h0
      have hall : ∀ e ∈ (domainLam K B L s0).trace, e.failed = false := by
        intro e he
        rw [htr] at he
        simp only [List.mem_cons, List.mem_append, List.not_mem_nil, or_false] at he
        rcases he with rfl | rfl | he | rfl | rfl | rfl
        · rfl
        · rfl
        · exact (cycles_kinds fabric info ds e he).1
        · rfl
        · rfl
        · rfl
      refine ⟨?_, ?_⟩
      · intro pre post e ret h h1 h2
        exact (hnone hall pre post e ret h h1 h2).elim
      · rw [hres]
        simp only [true_iff]
        exact ⟨⟨hints, rfl⟩, hall⟩

/-- C1 as amended, at a library whose third domain open returns `-12`: that open is
the seventh and last call of the run, and the run ends with the error of `CHECK` for
line 99. -/
theorem checked_call_failure_is_fatal_witness :
    (domainLam consts build (scripted true 0 0 (fun s => if s = 7 then -12 else 0)
        (fun _ => 0)) 0).trace.drop 7 = [] ∧
    (domainLam consts build (scripted true 0 0 (fun s => if s = 7 then -12 else 0)
        (fun _ => 0)) 0).result
      = .error (checkMessage (fun r => "error " ++ toString r) (-12) (build.location 99)) :=
  (checked_call_failure_is_fatal consts build
      (scripted true 0 0 (fun s => if s = 7 then -12 else 0) (fun _ => 0)) 0).1
    ((domainLam consts build (scripted true 0 0 (fun s => if s = 7 then -12 else 0)
        (fun _ => 0)) 0).trace.take 6)
    ((domainLam consts build (scripted true 0 0 (fun s => if s = 7 then -12 else 0)
        (fun _ => 0)) 0).trace.drop 7)
    (.domain 2 { fixedHints consts 0 with ptr := 1 } (-12) 7) (-12)
    (by decide) rfl (by decide)

set_option maxRecDepth 100000 in
/-- C1 fails as stated: with a library whose every `fi_close` returns `-22`, the first
domain close (call 4) and the fabric close (call 1003) return `-22`, yet the worker
goes on to the next calls and returns normally after all 1005 calls. -/
theorem close_failure_is_not_escalated :
    (domainLam consts build (scripted true 0 0 (fun _ => 0) (fun _ => -22)) 0).trace[3]?
      = some (.close_domain 3 (-22)) ∧
    ((domainLam consts build (scripted true 0 0 (fun _ => 0) (fun _ => -22)) 0).trace[4]?).map
      Event.isDomainOpen = some true ∧
    (domainLam consts build (scripted true 0 0 (fun _ => 0) (fun _ => -22)) 0).trace[1002]?
      = some (.close_fabric 2 (-22)) ∧
    (domainLam consts build (scripted true 0 0 (fun _ => 0) (fun _ => -22)) 0).trace.length
      = 1005 ∧
    (domainLam consts build (scripted true 0 0 (fun _ => 0) (fun _ => -22)) 0).result
      = .ok () :=
  ⟨by decide!, by decide!, by decide!, by decide!, rfl⟩

/-- C6 as amended: in a run in which `makeHints` returned `hints`, a normal return
means `fi_freeinfo(hints)` was called exactly once, as the last call of the run and
with `dest_addr` null; a run that throws (the query, the fabric open or a domain open
returned a non-zero status) never calls `fi_freeinfo(hints)`. -/
theorem hints_released_once_on_normal_return {σ : Type} (K : FiConsts) (B : Build)
    (L : Fabric σ) (s0 s1 : σ) (hints : fi_info)
    (hm : makeHints K L s0 = (.ok hints, s1)) :
    ((domainLam K B L s0).result = .ok () →
      (domainLam K B L s0).trace.countP Event.isFreeHints = 1 ∧
      (domainLam K B L s0).trace.getLast?
        = some (.freeinfo_hints { hints with dest_addr := none })) ∧
    (∀ m, (domainLam K B L s0).result = .error m →
      (domainLam K B L s0).trace.countP Event.isFreeHints = 0 ∧
      ∃ e ∈ (domainLam K B L s0).trace, e.failed = true) := by
  obtain ⟨ret1, info, _, hshape⟩ := domainLam_shape K B L s0 s1 hints hm
  rcases hshape with ⟨hne, htr, hres⟩ | ⟨h0, ret2, fabric, _, hne, htr, hres⟩ |
    ⟨h0, fabric, ds, ret3, d2, _, _, hne, _, htr, hres⟩ |
    ⟨h0, fabric, ds, r2, _, _, _, _, htr, hres⟩
  · refine ⟨fun h => ?_, fun m _ =>
      ⟨?_, Event.getinfo (L.fi_version s1) none none 0 hints ret1 info, by rw [htr]; simp, ?_⟩⟩
    · rw [hres] at h
      cases h
    · simp [htr, Event.isFreeHints]
    · simp [Event.failed, Event.checked, hne]
  · refine ⟨fun h => ?_, fun m _ =>
      ⟨?_, Event.fabric info.fabric_attr ret2 fabric, by rw [htr]; simp, ?_⟩⟩
    · rw [hres] at h
      cases h
    · simp [htr, Event.isFreeHints]
    · simp [Event.failed, Event.checked, hne]
  · have hfh : (cycles fabric info ds).countP Event.isFreeHints = 0 :=
      List.countP_eq_zero.mpr (fun e he => by
        simp [(cycles_kinds fabric info ds e he).2.2.2])
    refine ⟨fun h => ?_, fun m _ =>
      ⟨?_, Event.domain fabric info ret3 d2, by rw [htr]; simp, ?_⟩⟩
    · rw [hres] at h
      cases h
    · rw [htr]
      simp [List.countP_cons, List.countP_append, hfh, Event.isFreeHints]
    · simp [Event.failed, Event.checked, hne]
  · have hfh : (cycles fabric info ds).countP Event.isFreeHints = 0 :=
      List.countP_eq_zero.mpr (fun e he => by
        simp [(cycles_kinds fabric info ds e he).2.2.2])
    refine ⟨fun _ => ⟨?_, ?_⟩, fun m h => ?_⟩
    · rw [htr]
      simp [List.countP_cons, List.countP_append, hfh, Event.isFreeHints]
    · have hsplit : (domainLam K B L s0).trace
          = (Event.getinfo (L.fi_version s1) none none 0 hints ret1 info
              :: Event.fabric info.fabric_attr 0 fabric
              :: (cycles fabric info ds
                  ++ [Event.close_fabric fabric r2, Event.freeinfo_info info]))
            ++ [Event.freeinfo_hints { hints with dest_addr := none }] := by
        rw [htr]
        simp
      rw [hsplit, List.getLast?_concat]
    · rw [hres] at h
      cases h

set_option maxRecDepth 100000 in
/-- C6 as amended, at a library in which every call succeeds: the run returns
normally and its only release of the hints is its last call. -/
theorem hints_released_once_on_normal_return_witness :
    (domainLam consts build (scripted true 0 0 (fun _ => 0) (fun _ => 0)) 0).trace.countP
      Event.isFreeHints = 1 ∧
    (domainLam consts build (scripted true 0 0 (fun _ => 0) (fun _ => 0)) 0).trace.getLast?
      = some (.freeinfo_hints { fixedHints consts 0 with dest_addr := none }) :=
  (hints_released_once_on_normal_return consts build
    (scripted true 0 0 (fun _ => 0) (fun _ => 0)) 0 1 (fixedHints consts 0) rfl).1 rfl

/-- C6 fails as stated: with a library whose `fi_getinfo` returns `-61`, `makeHints`
returns a descriptor, the worker throws at line 94 after that one call, and the
descriptor is never released. -/
theorem hints_leak_on_failed_query :
    (makeHints consts (scripted true (-61) 0 (fun _ => 0) (fun _ => 0)) 0).1
      = .ok (fixedHints consts 0) ∧
    (domainLam consts build (scripted true (-61) 0 (fun _ => 0) (fun _ => 0)) 0).result
      = .error "Check failed file: main.cpp(94:10) `main()::<lambda()>`: error -61" ∧
    (domainLam consts build (scripted true (-61) 0 (fun _ => 0) (fun _ => 0)) 0).trace
      = [.getinfo 0x10015 none none 0 (fixedHints consts 0) (-61)
          { fixedHints consts 0 with ptr := 1 }] ∧
    (domainLam consts build (scripted true (-61) 0 (fun _ => 0) (fun _ => 0)) 0).trace.countP
      Event.isFreeHints = 0 :=
  ⟨rfl, rfl, by decide, by decide⟩

/-- C3: with a library in which every call succeeds, a run of `domainLam` returns
normally and its calls are exactly: `fi_getinfo` with the hints of `makeHints`, no
node and no service; `fi_fabric` on the fabric attributes of the result; 500 times a
`fi_domain` on that fabric and result followed at once by the close of the domain
just opened; the close of the fabric; `fi_freeinfo` of the result; `fi_freeinfo` of
the hints with `dest_addr` null.  Hence each of the 50 workers of `main` returns
normally after 500 open/close cycles, 25000 cycles in all, and none of them throws. -/
theorem all_success_run_is_500_cycles {σ : Type} (K : FiConsts) (B : Build) (L : Fabric σ)
    (hok : L.allSucceed) :
    (∀ s0 : σ, ∃ (hints info : fi_info) (s1 : σ) (fabric : Fid) (ds : List (Fid × Int)),
      makeHints K L s0 = (.ok hints, s1) ∧
      (L.fi_getinfo s1 (L.fi_version s1) none none 0 hints).1 = (0, info) ∧
      ds.length = 500 ∧ (∀ p ∈ ds, p.2 = 0) ∧
      (domainLam K B L s0).trace
        = .getinfo (L.fi_version s1) none none 0 hints 0 info
            :: .fabric info.fabric_attr 0 fabric
            :: (cycles fabric info ds
                ++ [.close_fabric fabric 0, .freeinfo_info info,
                    .freeinfo_hints { hints with dest_addr := none }]) ∧
      (domainLam K B L s0).trace.length = 1005 ∧
      (domainLam K B L s0).trace.countP Event.isDomainOpened = 500 ∧
      (domainLam K B L s0).trace.countP Event.isDomainClose = 500 ∧
      (domainLam K B L s0).result = .ok ()) ∧
    (∀ s : Fin 50 → σ,
      (thrs K B L s).length = 50 ∧
      (∀ run ∈ thrs K B L s, run.result = .ok ()) ∧
      ((thrs K B L s).map (fun run => run.trace.countP Event.isDomainClose)).sum = 25000 ∧
      ((thrs K B L s).map (fun run => run.trace.countP Event.isDomainOpened)).sum
        = 50 * 500) := by
  obtain ⟨hal, hgi, hfa, hdo, hcl⟩ := hok
  have hrun : ∀ s0 : σ, ∃ (hints info : fi_info) (s1 : σ) (fabric : Fid)
      (ds : List (Fid × Int)),
      makeHints K L s0 = (.ok hints, s1) ∧
      (L.fi_getinfo s1 (L.fi_version s1) none none 0 hints).1 = (0, info) ∧
      ds.length = 500 ∧ (∀ p ∈ ds, p.2 = 0) ∧
      (domainLam K B L s0).trace
        = .getinfo (L.fi_version s1) none none 0 hints 0 info
            :: .fabric info.fabric_attr 0 fabric
            :: (cycles fabric info ds
                ++ [.close_fabric fabric 0, .freeinfo_info info,
                    .freeinfo_hints { hints with dest_addr := none }]) ∧
      (domainLam K B L s0).trace.length = 1005 ∧
      (domainLam K B L s0).trace.countP Event.isDomainOpened = 500 ∧
      (domainLam K B L s0).trace.countP Event.isDomainClose = 500 ∧
      (domainLam K B L s0).result = .ok () := by
    intro s0
    rcases hm : makeHints K L s0 with ⟨m | hints, s1⟩
    · exfalso
      apply hal s0
      rcases ha : L.fi_allocinfo s0 with ⟨_ | a, t⟩
      · rfl
      · simp [makeHints, ha] at hm
    · obtain ⟨ret1, info, hlib, hshape⟩ := domainLam_shape K B L s0 s1 hints hm
      have hret1 : ret1 = 0 := by
        have := hgi s1 (L.fi_version s1) none none 0 hints
        rw [hlib] at this
        exact this
      rcases hshape with ⟨hne, _, _⟩ | ⟨_, ret2, fabric, ⟨s2, hl2⟩, hne, _, _⟩ |
        ⟨_, fabric, ds, ret3, d2, _, _, hne, ⟨s3, hl3⟩, _, _⟩ |
        ⟨h0, fabric, ds, r2, _, hlen, hds, ⟨s5, hl5⟩, htr, hres⟩
      · exact absurd hret1 hne
      · have := hfa s2 info.fabric_attr
        rw [hl2] at this
        exact absurd this hne
      · have := hdo s3 fabric info
        rw [hl3] at this
        exact absurd this hne
      · subst h0
        have hr2 : r2 = 0 := by
          rw [← hl5]
          exact hcl s5 fabric
        subst hr2
        obtain ⟨c1, c2, c3⟩ := cycles_counts fabric info ds
        refine ⟨hints, info, s1, fabric, ds, rfl, hlib, hlen, ?_, htr, ?_, ?_, ?_, hres⟩
        · intro p hp
          obtain ⟨_, s4, _, h4⟩ := hds p hp
          rw [← h4]
          exact hcl s4 p.1
        · rw [htr]
          simp [c3, hlen]
        · rw [htr]
          simp [List.countP_cons, List.countP_append, c1, hlen, Event.isDomainOpened]
        · rw [htr]
          simp [List.countP_cons, List.countP_append, c2, hlen, Event.isDomainClose]
  refine ⟨hrun, ?_⟩
  intro s
  have hc : ∀ i, (domainLam K B L (s i)).trace.countP Event.isDomainClose = 500 := by
    intro i
    obtain ⟨_, _, _, _, _, _, _, _, _, _, _, _, h, _⟩ := hrun (s i)
    exact h
  have ho : ∀ i, (domainLam K B L (s i)).trace.countP Event.isDomainOpened = 500 := by
    intro i
    obtain ⟨_, _, _, _, _, _, _, _, _, _, _, h, _⟩ := hrun (s i)
    exact h
  refine ⟨by simp [thrs], ?_, ?_, ?_⟩
  · intro run hr
    simp only [thrs, List.mem_ofFn] at hr
    obtain ⟨i, rfl⟩ := hr
    obtain ⟨_, _, _, _, _, _, _, _, _, _, _, _, _, h⟩ := hrun (s i)
    exact h
  · simp only [thrs, List.map_ofFn, Function.comp_def, hc]
    simp [List.sum_ofFn]
  · simp only [thrs, List.map_ofFn, Function.comp_def, ho]
    simp [List.sum_ofFn]

/-- C3 at a library in which every call succeeds. -/
theorem all_success_run_is_500_cycles_witness :
    (scripted true 0 0 (fun _ => 0) (fun _ => 0)).allSucceed ∧
    ∀ s : Fin 50 → Nat,
      ((thrs consts build (scripted true 0 0 (fun _ => 0) (fun _ => 0)) s).map
        (fun run => run.trace.countP Event.isDomainClose)).sum = 25000 :=
  have h : (scripted true 0 0 (fun _ => 0) (fun _ => 0)).allSucceed :=
    ⟨fun _ => by simp [scripted], fun _ _ _ _ _ _ => rfl, fun _ _ => rfl, fun _ _ _ => rfl,
      fun _ _ => rfl⟩
  ⟨h, fun s => ((all_success_run_is_500_cycles consts build
    (scripted true 0 0 (fun _ => 0) (fun _ => 0)) h).2 s).2.2.1⟩

end MemhookMonitor
